import Mathlib

/- Shallow embedding of the combat-resolution core of the elemental-deck-defense
   repository (TypeScript).  JavaScript numbers are modelled as exact rationals
   (ℚ) and Math.floor as Int.floor.  Object references are modelled by integer
   ids.  Euclidean distances (Math.sqrt of a sum of squares, computed from
   entity centers in the source) are supplied as data — a function from ids to
   ℚ — since the source only consumes their values in comparisons and in the
   explosion falloff formula. -/

namespace EDD

/-- Elements, from `ElementType` in src/types (part_006). -/
inductive ElementType
  | physical | fire | ice | lightning | poison | light | arcane
  deriving DecidableEq

/-- Status tags: `StatusType = ElementType | 'oil' | 'frozen'` (part_006). -/
inductive StatusType
  | elem (e : ElementType)
  | oil
  | frozen
  deriving DecidableEq

/-- Enemy archetypes, from `EnemyType` (part_006). -/
inductive EnemyType
  | normal | tank | breaker | ghost | boss
  deriving DecidableEq

/-- The fields of the `Enemy` class (part_008) that the combat core reads or
    writes.  `id` stands for the object's reference identity. -/
structure Enemy where
  id : Nat
  health : ℚ
  maxHealth : ℚ
  isAlive : Bool
  status : Option StatusType
  statusDuration : ℚ
  isFrozen : Bool
  freezeEndTime : ℚ
  resistance : Option ElementType
  ccImmunity : ℚ
  evasionChance : ℚ
  priority : Nat
  enemyType : EnemyType
  lastAttackTime : ℚ
  attackCooldown : ℚ
  attackDamage : ℚ
  deriving DecidableEq

namespace Enemy

/-- The `health -= d; if health <= 0 then health = 0, isAlive = false` pattern
    shared by every branch of `Enemy.takeDamage` (part_008). -/
def applyHp (e : Enemy) (d : ℚ) : Enemy :=
  let h := e.health - d
  if h ≤ 0 then { e with health := 0, isAlive := false }
  else { e with health := h }

/-- `Enemy.takeDamage(damage, attackElement?)` (part_008 lines 409-439).
    Returns the updated enemy and the actually applied damage.  The attack
    element is optional: the reaction system calls `takeDamage` without it. -/
def takeDamage (e : Enemy) (damage : ℚ) (attackElement : Option ElementType) :
    Enemy × ℚ :=
  if attackElement = some ElementType.physical then
    (applyHp e damage, damage)
  else if (match e.resistance, attackElement with
           | some r, some a => decide (r = a)
           | _, _ => false) then
    (applyHp e 1, 1)
  else
    (applyHp e damage, damage)

/-- `Enemy.applyStatus(status, duration)` (part_008); the source default for
    `duration` is 3000, which callers of the embedding pass explicitly. -/
def applyStatus (e : Enemy) (status : StatusType) (duration : ℚ) :
    Enemy :=
  { e with status := some status, statusDuration := duration }

/-- `Enemy.clearStatus()` (part_008). -/
def clearStatus (e : Enemy) : Enemy :=
  { e with status := none, statusDuration := 0 }

/-- `Enemy.freeze(duration)` (part_008 lines 283-293).  `now` stands for the
    `Date.now()` read in the source. -/
def freeze (e : Enemy) (duration now : ℚ) : Enemy :=
  let actualDuration : ℤ := ⌊duration * (1 - e.ccImmunity)⌋
  if actualDuration < 200 then e
  else { e with isFrozen := true,
                freezeEndTime := now + (actualDuration : ℚ),
                status := some StatusType.frozen }

/-- `Enemy.tryEvade()` (part_008): `Math.random() < evasionChance`, with the
    random draw `roll` passed in as data. -/
def tryEvade (e : Enemy) (roll : ℚ) : Bool :=
  roll < e.evasionChance

/-- `Enemy.canAttackTower(currentTime)` (part_008). -/
def canAttackTower (e : Enemy) (currentTime : ℚ) : Bool :=
  e.attackCooldown ≤ currentTime - e.lastAttackTime

/-- `Enemy.attackTower(tower, currentTime)` (part_008): stamps the attack time,
    self-destructs a breaker, and returns the attack damage. -/
def attackTower (e : Enemy) (currentTime : ℚ) : Enemy × ℚ :=
  let e1 := { e with lastAttackTime := currentTime }
  let e2 := if e1.enemyType = EnemyType.breaker then
              { e1 with isAlive := false, health := 0 }
            else e1
  (e2, e2.attackDamage)

end Enemy

/-- Find an enemy by reference identity in the live list. -/
def lookupEnemy (es : List Enemy) (i : Nat) : Option Enemy :=
  es.find? fun e => e.id = i

/-- Mutate the enemy object referenced by `i` inside the live list. -/
def updateEnemy (es : List Enemy) (i : Nat) (f : Enemy → Enemy) : List Enemy :=
  es.map fun e => if e.id = i then f e else e

/-- Reaction identifiers, from `ReactionType` (part_006). -/
inductive ReactionType
  | melt | freeze | explosion
  deriving DecidableEq

/-- `ReactionConfig` (part_006): trigger pair plus the optional numeric
    fields the engine reads. -/
structure ReactionConfig where
  trigger : StatusType × ElementType
  damageMultiplier : Option ℚ
  freezeDuration : Option ℚ
  explosionRadius : Option ℚ
  deriving DecidableEq

/-- `REACTION_CONFIGS` (part_006 lines 566-592), in `Object.entries` order. -/
def REACTION_CONFIGS : List (ReactionType × ReactionConfig) :=
  [ (ReactionType.melt,
     { trigger := (StatusType.elem ElementType.ice, ElementType.fire),
       damageMultiplier := some 3,
       freezeDuration := none,
       explosionRadius := none }),
    (ReactionType.freeze,
     { trigger := (StatusType.elem ElementType.ice, ElementType.lightning),
       damageMultiplier := none,
       freezeDuration := some 2000,
       explosionRadius := none }),
    (ReactionType.explosion,
     { trigger := (StatusType.oil, ElementType.fire),
       damageMultiplier := some (3/2),
       freezeDuration := none,
       explosionRadius := some 80 }) ]

/-- The result record built by `ReactionSystem.executeReaction`; enemies are
    recorded by id. -/
structure ReactionResult where
  type : ReactionType
  damage : ℚ
  affectedEnemies : List Nat
  deriving DecidableEq

/-- One step of the explosion loop body of `ReactionSystem.executeReaction`
    (ReactionSystem.ts lines 105-128): damage with linear falloff and the
    oil-tag clear, for an enemy at distance `d` from the epicenter. -/
def explosionStep (totalDamage radius : ℚ) (d : ℚ) (e : Enemy) : Enemy :=
  if e.isAlive then
    if d ≤ radius then
      let explosionDamage : ℚ := (⌊totalDamage * (1 - d / radius * (1/2))⌋ : ℤ)
      let e1 := (e.takeDamage explosionDamage none).1
      if e1.status = some StatusType.oil then e1.clearStatus else e1
    else e
  else e

/-- `ReactionSystem.executeReaction` (ReactionSystem.ts lines 74-142).
    `dist i` is the Euclidean distance from the primary target's center (the
    epicenter) to the center of the enemy with id `i`, as computed via
    Math.sqrt in the source.  `now` stands for `Date.now()`. -/
def executeReaction (type : ReactionType) (config : ReactionConfig)
    (targetId : Nat) (baseDamage : ℚ) (allEnemies : List Enemy)
    (dist : Nat → ℚ) (now : ℚ) : ReactionResult × List Enemy :=
  match type with
  | ReactionType.melt =>
      let totalDamage : ℚ := (⌊baseDamage * (config.damageMultiplier.getD 3)⌋ : ℤ)
      let es := updateEnemy allEnemies targetId
        fun e => ((e.takeDamage totalDamage none).1).clearStatus
      ({ type := type, damage := totalDamage, affectedEnemies := [targetId] }, es)
  | ReactionType.freeze =>
      let es := updateEnemy allEnemies targetId
        fun e => (e.freeze (config.freezeDuration.getD 2000) now).clearStatus
      ({ type := type, damage := baseDamage, affectedEnemies := [targetId] }, es)
  | ReactionType.explosion =>
      let totalDamage : ℚ := (⌊baseDamage * (config.damageMultiplier.getD (3/2))⌋ : ℤ)
      let radius := config.explosionRadius.getD 80
      let es0 := allEnemies.map fun e => explosionStep totalDamage radius (dist e.id) e
      let es := updateEnemy es0 targetId Enemy.clearStatus
      let affected := targetId ::
        (allEnemies.filter fun e =>
          e.isAlive ∧ dist e.id ≤ radius ∧ e.id ≠ targetId).map Enemy.id
      ({ type := type, damage := totalDamage, affectedEnemies := affected }, es)

/-- `ReactionSystem.checkAndTriggerReaction` (ReactionSystem.ts lines 36-69):
    no status ⇒ apply the attack element as the new status and return null;
    a matching `REACTION_CONFIGS` entry ⇒ execute the reaction; otherwise
    overwrite the status with the attack element. -/
def checkAndTriggerReaction (targetId : Nat) (attackElement : ElementType)
    (baseDamage : ℚ) (allEnemies : List Enemy) (dist : Nat → ℚ) (now : ℚ) :
    Option ReactionResult × List Enemy :=
  match lookupEnemy allEnemies targetId with
  | none => (none, allEnemies)
  | some enemy =>
    match enemy.status with
    | none =>
        (none, updateEnemy allEnemies targetId
          fun e => e.applyStatus (StatusType.elem attackElement) 3000)
    | some currentStatus =>
        match REACTION_CONFIGS.find? (fun rc =>
            decide (rc.2.trigger.1 = currentStatus ∧
                    rc.2.trigger.2 = attackElement)) with
        | some (ty, config) =>
            let (r, es) :=
              executeReaction ty config targetId baseDamage allEnemies dist now
            (some r, es)
        | none =>
            (none, updateEnemy allEnemies targetId
              fun e => e.applyStatus (StatusType.elem attackElement) 3000)

/-- The outcome of processing one projectile hit in `Game.update`. -/
structure HitOutcome where
  enemies : List Enemy
  reaction : Option ReactionResult
  evaded : Bool
  deriving DecidableEq

/-- The per-hit pipeline of `Game.update` (part_007 lines 1992-2017): after the
    projectile reports a collision, first roll the target's evasion (a proc
    skips the hit entirely), then run the reaction check, and only when no
    reaction fired apply the raw damage with the resistance check
    (`takeDamage(damage, element)`). -/
def processHit (roll : ℚ) (targetId : Nat) (element : ElementType)
    (damage : ℚ) (enemies : List Enemy) (dist : Nat → ℚ) (now : ℚ) :
    HitOutcome :=
  match lookupEnemy enemies targetId with
  | none => { enemies := enemies, reaction := none, evaded := false }
  | some target =>
    if target.tryEvade roll then
      { enemies := enemies, reaction := none, evaded := true }
    else
      match checkAndTriggerReaction targetId element damage enemies dist now with
      | (some r, es) => { enemies := es, reaction := some r, evaded := false }
      | (none, es) =>
          { enemies := updateEnemy es targetId
              (fun e => (e.takeDamage damage (some element)).1),
            reaction := none, evaded := false }

/-- A synergy configuration entry, `SynergyEffect` (part_006). -/
structure SynergyEffect where
  name : String
  sourceElement : ElementType
  requiredElement : ElementType
  damageMultiplier : ℚ
  deriving DecidableEq

/-- `SYNERGY_CONFIGS` (part_006 lines 735-760), in `Object.values` order. -/
def SYNERGY_CONFIGS : List SynergyEffect :=
  [ { name := "fire_ice", sourceElement := ElementType.fire,
      requiredElement := ElementType.ice, damageMultiplier := 2 },
    { name := "ice_lightning", sourceElement := ElementType.ice,
      requiredElement := ElementType.lightning, damageMultiplier := 3/2 },
    { name := "lightning_fire", sourceElement := ElementType.lightning,
      requiredElement := ElementType.fire, damageMultiplier := 3/2 } ]

/-- The fields of the `Tower` class (Tower.ts) that the combat core reads or
    writes.  `id` stands for reference identity; `currentTarget` holds the
    state of the referenced enemy object. -/
structure Tower where
  id : Nat
  gridRow : ℤ
  gridCol : ℤ
  element : ElementType
  range : ℚ
  fireRate : ℚ
  baseDamage : ℚ
  hp : ℚ
  isAlive : Bool
  isSilenced : Bool
  silenceEndTime : ℚ
  activeSynergies : List SynergyEffect
  synergyDamageMultiplier : ℚ
  lastFireTime : ℚ
  currentTarget : Option Enemy
  deriving DecidableEq

namespace Tower

/-- `Tower.takeDamage(damage)` (Tower.ts lines 97-109): returns the updated
    tower and whether it was destroyed. -/
def takeDamage (t : Tower) (damage : ℚ) : Tower × Bool :=
  if t.isAlive = false then (t, false)
  else
    let hp := t.hp - damage
    if hp ≤ 0 then ({ t with hp := 0, isAlive := false }, true)
    else ({ t with hp := hp }, false)

/-- `Tower.setSynergies(synergies)` (Tower.ts lines 163-171): stores the list
    and recomputes the multiplier as the product over the list. -/
def setSynergies (t : Tower) (synergies : List SynergyEffect) : Tower :=
  { t with activeSynergies := synergies,
           synergyDamageMultiplier :=
             synergies.foldl (fun m s => m * s.damageMultiplier) 1 }

/-- `Tower.getEffectiveDamage()` (Tower.ts line 157). -/
def getEffectiveDamage (t : Tower) : ℚ :=
  (⌊t.baseDamage * t.synergyDamageMultiplier⌋ : ℤ)

end Tower

/-- `distance < closestDistance`, where `none` stands for the `Infinity`
    initial value of `closestDistance` in `Tower.findTarget`. -/
def closerThan (d : ℚ) : Option ℚ → Bool
  | none => true
  | some c => d < c

/-- The loop of `Tower.findTarget` (Tower.ts lines 296-313), carrying the
    three loop variables `currentTarget` / `bestPriority` / `closestDistance`.
    `dist i` is `getDistanceTo` of the enemy with id `i`.  Returns the final
    value of `currentTarget`. -/
def selectLoop (range : ℚ) (dist : Nat → ℚ) :
    List Enemy → Option Enemy → Nat → Option ℚ → Option Enemy
  | [], best, _, _ => best
  | e :: rest, best, bestPriority, closest =>
      if e.isAlive = false then
        selectLoop range dist rest best bestPriority closest
      else if range < dist e.id then
        selectLoop range dist rest best bestPriority closest
      else if bestPriority < e.priority ∨
              (e.priority = bestPriority ∧ closerThan (dist e.id) closest) then
        selectLoop range dist rest (some e) e.priority (some (dist e.id))
      else
        selectLoop range dist rest best bestPriority closest

/-- `Tower.findTarget(enemies)` (Tower.ts lines 289-314): keep a live,
    in-range current target; otherwise rescan.  Returns the new value of
    `currentTarget`. -/
def findTarget (range : ℚ) (current : Option Enemy) (enemies : List Enemy)
    (dist : Nat → ℚ) : Option Enemy :=
  match current with
  | some t =>
      if t.isAlive ∧ dist t.id ≤ range then some t
      else selectLoop range dist enemies none 0 none
  | none => selectLoop range dist enemies none 0 none

/-- The projectile data built by `Tower.tryFire` (Tower.ts lines 346-366). -/
structure FiredProjectile where
  element : ElementType
  damage : ℚ
  size : ℚ
  targetId : Nat
  deriving DecidableEq

/-- `Tower.tryFire(currentTime)` (Tower.ts lines 320-368): silence gate, live
    target check, fire-rate gate, range re-check (dropping the target when it
    left range), then fire.  `dist i` is `getDistanceTo` by enemy id. -/
def tryFire (t : Tower) (currentTime : ℚ) (dist : Nat → ℚ) :
    Option FiredProjectile × Tower :=
  let go := fun (t : Tower) =>
    match t.currentTarget with
    | none => (none, t)
    | some target =>
      if target.isAlive = false then (none, t)
      else if currentTime - t.lastFireTime < t.fireRate then (none, t)
      else if dist target.id ≤ t.range then
        let t1 := { t with lastFireTime := currentTime }
        (some { element := t.element,
                damage := t.getEffectiveDamage,
                size := if t.activeSynergies ≠ [] then 8 else 6,
                targetId := target.id }, t1)
      else (none, { t with currentTarget := none })
  if t.isSilenced then
    if t.silenceEndTime ≤ currentTime then go { t with isSilenced := false }
    else (none, t)
  else go t

/-- `GAME_CONFIG.GRID_SIZE` (part_006 line 903). -/
def GRID_SIZE : ℚ := 40

/-- The inner tower scan of `Game.processEnemyAttacks` (part_007 lines
    2110-2140): find the first living tower within `GRID_SIZE * 1.5`, attack
    it, and break.  `distET e t` is the Euclidean tower-to-enemy distance by
    ids.  Returns the updated enemy, the updated tower list, and the attack
    event `(enemyId, towerId)` if one happened. -/
def meleeScan (now : ℚ) (distET : Nat → Nat → ℚ) (e : Enemy) :
    List Tower → Enemy × List Tower × Option (Nat × Nat)
  | [] => (e, [], none)
  | tw :: rest =>
      if tw.isAlive = false then
        let (e1, rest1, ev) := meleeScan now distET e rest
        (e1, tw :: rest1, ev)
      else if distET e.id tw.id < GRID_SIZE * (3/2) then
        let (e1, damage) := e.attackTower now
        let (tw1, _) := tw.takeDamage damage
        (e1, tw1 :: rest, some (e.id, tw.id))
      else
        let (e1, rest1, ev) := meleeScan now distET e rest
        (e1, tw :: rest1, ev)

/-- `Game.processEnemyAttacks(currentTime)` (part_007 lines 2102-2142): for
    each living non-breaker enemy whose attack cooldown has elapsed, run the
    tower scan (at most one attack per enemy per tick). -/
def processEnemyAttacks (now : ℚ) (distET : Nat → Nat → ℚ) :
    List Enemy → List Tower → List Enemy × List Tower × List (Nat × Nat)
  | [], towers => ([], towers, [])
  | e :: rest, towers =>
      if e.isAlive = false ∨ e.enemyType = EnemyType.breaker ∨
          e.canAttackTower now = false then
        let (rest1, towers1, evs) := processEnemyAttacks now distET rest towers
        (e :: rest1, towers1, evs)
      else
        let (e1, towers1, ev) := meleeScan now distET e towers
        let (rest1, towers2, evs) := processEnemyAttacks now distET rest towers1
        (e1 :: rest1, towers2, ev.toList ++ evs)

/-- `GAME_CONFIG.GRID_ROWS` (part_006). -/
def GRID_ROWS : ℤ := 15

/-- `GAME_CONFIG.GRID_COLS` (part_006). -/
def GRID_COLS : ℤ := 15

/-- Lookup in the `Map` built by `SynergySystem.createTowerMap` keyed by
    `"row,col"`: `Map.set` overwrite semantics make the last tower stored at a
    key win, hence the search through the reversed insertion list. -/
def mapGet (m : List Tower) (r c : ℤ) : Option Tower :=
  m.reverse.find? fun t => t.gridRow = r ∧ t.gridCol = c

/-- The four orthogonal directions scanned by
    `SynergySystem.getAdjacentTowers` (part_002), in source order. -/
def directions : List (ℤ × ℤ) := [(-1, 0), (1, 0), (0, -1), (0, 1)]

/-- `SynergySystem.getAdjacentTowers(tower, towerMap)` (part_002): the up to
    four orthogonal neighbors present in the map, after the bounds check. -/
def getAdjacentTowers (t : Tower) (m : List Tower) : List Tower :=
  directions.filterMap fun d =>
    let newRow := t.gridRow + d.1
    let newCol := t.gridCol + d.2
    if newRow < 0 ∨ GRID_ROWS ≤ newRow ∨ newCol < 0 ∨ GRID_COLS ≤ newCol then
      none
    else mapGet m newRow newCol

/-- `SynergySystem.calculateSynergiesForTower(tower, towerMap)` (part_002):
    keep each configured synergy whose source element is the tower's element
    and whose required element occurs among the orthogonal neighbors. -/
def calculateSynergiesForTower (t : Tower) (m : List Tower) :
    List SynergyEffect :=
  let adjacentElements := (getAdjacentTowers t m).map Tower.element
  SYNERGY_CONFIGS.filter fun cfg =>
    t.element = cfg.sourceElement ∧ cfg.requiredElement ∈ adjacentElements

/-- `SynergySystem.calculateAndApplySynergies(towers)` (part_002): recompute
    every tower's synergy list from the shared position map and store it via
    `setSynergies`. -/
def calculateAndApplySynergies (towers : List Tower) : List Tower :=
  towers.map fun t => t.setSynergies (calculateSynergiesForTower t towers)

/-- The value returned by `SynergySystem.previewSynergies`. -/
structure SynergyPreview where
  newTowerSynergies : List SynergyEffect
  affectedTowers : List (Tower × List SynergyEffect)
  deriving DecidableEq

/-- The hypothetical tower object built inside `previewSynergies` (only its
    `gridRow`, `gridCol` and `element` fields are ever read). -/
def tempTower (element : ElementType) (gridRow gridCol : ℤ) : Tower :=
  { id := 0, gridRow := gridRow, gridCol := gridCol, element := element,
    range := 0, fireRate := 0, baseDamage := 0, hp := 0, isAlive := true,
    isSilenced := false, silenceEndTime := 0, activeSynergies := [],
    synergyDamageMultiplier := 1, lastFireTime := 0, currentTarget := none }

/-- `SynergySystem.previewSynergies(element, gridRow, gridCol, existingTowers)`
    (part_002 lines 113-160): build a scratch map holding the hypothetical
    tower, compute its synergies, and report each orthogonal neighbor whose
    recomputed synergy list has a different length than its current one.  The
    function reads but never writes the real towers (it calls no setter). -/
def previewSynergies (element : ElementType) (gridRow gridCol : ℤ)
    (existingTowers : List Tower) : SynergyPreview :=
  let tmp := tempTower element gridRow gridCol
  let towerMap := existingTowers ++ [tmp]
  let newTowerSynergies := calculateSynergiesForTower tmp towerMap
  let affectedTowers := directions.filterMap fun d =>
    match existingTowers.find? (fun t =>
        t.gridRow = gridRow + d.1 ∧ t.gridCol = gridCol + d.2) with
    | none => none
    | some adjTower =>
        let newSynergies := calculateSynergiesForTower adjTower towerMap
        if newSynergies.length ≠ adjTower.activeSynergies.length then
          some (adjTower, newSynergies)
        else none
  { newTowerSynergies := newTowerSynergies, affectedTowers := affectedTowers }

/- ------------------------------------------------------------------ -/
/- Auxiliary definitions and concrete entities used by the theorems     -/
/- ------------------------------------------------------------------ -/

/-- A boss enemy as spawned from `ENEMY_TYPE_CONFIGS.boss` at wave 1, carrying
    the `ccImmunity: 0.8` of the config and an ice status tag. -/
def bossE : Enemy :=
  { id := 0, health := 2000, maxHealth := 2000, isAlive := true,
    status := some (StatusType.elem ElementType.ice), statusDuration := 3000,
    isFrozen := false, freezeEndTime := 0, resistance := none,
    ccImmunity := 4/5, evasionChance := 0, priority := 5,
    enemyType := EnemyType.boss, lastAttackTime := 0, attackCooldown := 4000,
    attackDamage := 30 }

/-- A ghost enemy as spawned from `ENEMY_TYPE_CONFIGS.ghost` at wave 1
    (evasion chance 0.5). -/
def ghostE : Enemy :=
  { id := 1, health := 60, maxHealth := 60, isAlive := true,
    status := none, statusDuration := 0,
    isFrozen := false, freezeEndTime := 0, resistance := none,
    ccImmunity := 0, evasionChance := 1/2, priority := 1,
    enemyType := EnemyType.ghost, lastAttackTime := 0, attackCooldown := 2500,
    attackDamage := 8 }

/-- A normal enemy with an ice status tag and 1000 health. -/
def icyE : Enemy :=
  { id := 2, health := 1000, maxHealth := 1000, isAlive := true,
    status := some (StatusType.elem ElementType.ice), statusDuration := 3000,
    isFrozen := false, freezeEndTime := 0, resistance := none,
    ccImmunity := 0, evasionChance := 0, priority := 1,
    enemyType := EnemyType.normal, lastAttackTime := 0, attackCooldown := 1000,
    attackDamage := 10 }

/-- A fire-resistant enemy carrying an ice status tag. -/
def resistIceE : Enemy :=
  { id := 3, health := 1000, maxHealth := 1000, isAlive := true,
    status := some (StatusType.elem ElementType.ice), statusDuration := 3000,
    isFrozen := false, freezeEndTime := 0,
    resistance := some ElementType.fire,
    ccImmunity := 0, evasionChance := 0, priority := 1,
    enemyType := EnemyType.normal, lastAttackTime := 0, attackCooldown := 1000,
    attackDamage := 10 }

/-- A boss variant with `ccImmunity = 0.95`, ice-tagged, used to instantiate
    the below-floor freeze case. -/
def bossHighCC : Enemy :=
  { bossE with id := 4, ccImmunity := 19/20 }

/-- An oil-tagged enemy at the explosion epicenter. -/
def oilPrimE : Enemy :=
  { id := 10, health := 1000, maxHealth := 1000, isAlive := true,
    status := some StatusType.oil, statusDuration := 3000,
    isFrozen := false, freezeEndTime := 0, resistance := none,
    ccImmunity := 0, evasionChance := 0, priority := 1,
    enemyType := EnemyType.normal, lastAttackTime := 0, attackCooldown := 1000,
    attackDamage := 10 }

/-- An oil-tagged enemy sitting exactly at the explosion radius. -/
def oilNearE : Enemy :=
  { oilPrimE with id := 11, health := 500, maxHealth := 500 }

/-- An enemy just outside the explosion radius. -/
def farE : Enemy :=
  { oilPrimE with id := 12, health := 300, maxHealth := 300, status := none }

/-- Distances from the epicenter for the explosion witness scenario. -/
def distW : Nat → ℚ := fun i => if i = 10 then 0 else if i = 11 then 80 else 81

/-- The preference order of `Tower.findTarget`: `a` is at least as good a
    target as `b` (higher priority, or same priority and not farther). -/
def dominates (dist : Nat → ℚ) (a b : Enemy) : Prop :=
  b.priority < a.priority ∨
    (b.priority = a.priority ∧ dist a.id ≤ dist b.id)

/-- The `bestPriority` loop variable corresponding to a current best. -/
def accPriority : Option Enemy → Nat
  | none => 0
  | some b => b.priority

/-- The `closestDistance` loop variable corresponding to a current best. -/
def accClosest (dist : Nat → ℚ) : Option Enemy → Option ℚ
  | none => none
  | some b => some (dist b.id)

/-- A live tank-archetype enemy (priority 3), 70px from the tower. -/
def tankFarE : Enemy :=
  { id := 20, health := 300, maxHealth := 300, isAlive := true,
    status := none, statusDuration := 0, isFrozen := false,
    freezeEndTime := 0, resistance := none, ccImmunity := 0,
    evasionChance := 0, priority := 3, enemyType := EnemyType.tank,
    lastAttackTime := 0, attackCooldown := 2000, attackDamage := 15 }

/-- A second tank (priority 3), 60px from the tower. -/
def tankNearE : Enemy := { tankFarE with id := 21 }

/-- A normal enemy (priority 1), 10px from the tower. -/
def normalNearE : Enemy :=
  { tankFarE with id := 22, priority := 1, enemyType := EnemyType.normal }

/-- A dead boss (priority 5), 5px from the tower. -/
def deadBossE : Enemy :=
  { tankFarE with
    id := 23, priority := 5, enemyType := EnemyType.boss, isAlive := false }

/-- Tower-to-enemy distances for the target-selection witness scenario. -/
def distSel : Nat → ℚ := fun i =>
  if i = 23 then 5 else if i = 22 then 10 else if i = 20 then 70
  else if i = 21 then 60 else 200

/-- An idle tower with no current target. -/
def towerIdle : Tower :=
  { id := 0, gridRow := 0, gridCol := 0, element := ElementType.fire,
    range := 100, fireRate := 800, baseDamage := 30, hp := 100,
    isAlive := true, isSilenced := false, silenceEndTime := 0,
    activeSynergies := [], synergyDamageMultiplier := 1, lastFireTime := 0,
    currentTarget := none }

/-- A breaker variant of the ghost, for the melee-pass exclusion case. -/
def breakerE : Enemy := { ghostE with id := 5, enemyType := EnemyType.breaker }

/-- Out-of-bounds test of `getAdjacentTowers`, for one direction. -/
def outOfBounds (a b : ℤ) : Prop :=
  a < 0 ∨ GRID_ROWS ≤ a ∨ b < 0 ∨ GRID_COLS ≤ b

/-- An ice tower at grid cell (5, 6), with no active synergies. -/
def iceT : Tower :=
  { towerIdle with
    id := 30, gridRow := 5, gridCol := 6, element := ElementType.ice }

/-- A lightning tower at grid cell (5, 4), with no active synergies. -/
def lightT : Tower :=
  { towerIdle with
    id := 31, gridRow := 5, gridCol := 4, element := ElementType.lightning }

/-- A fire tower at grid cell (9, 9), far from the preview placement. -/
def farT : Tower :=
  { towerIdle with
    id := 32, gridRow := 9, gridCol := 9, element := ElementType.fire }

/-- Round-to-nearest, ties to even, of a scaled significand: the integer
    nearest to `m`, with exact halves resolved to the even neighbor. -/
def rne (m : ℚ) : ℤ :=
  if m - ⌊m⌋ < 1/2 then ⌊m⌋
  else if 1/2 < m - ⌊m⌋ then ⌊m⌋ + 1
  else if ⌊m⌋ % 2 = 0 then ⌊m⌋ else ⌊m⌋ + 1

/-- IEEE-754 binary64 rounding of a real (rational) value, in the normal
    range: round to nearest with ties to even at 53 significant bits.
    Overflow and subnormals do not arise for the magnitudes the combat core
    computes, so they are not modelled. -/
def fpRound (x : ℚ) : ℚ :=
  if x = 0 then 0
  else
    let e : ℤ := Int.log 2 |x|
    let m : ℚ := |x| * (2 : ℚ) ^ (52 - e)
    (if 0 ≤ x then 1 else -1) * (rne m : ℚ) * (2 : ℚ) ^ (e - 52)

/-- The IEEE-754 double evaluation of
    `Math.floor(duration * (1 - this.ccImmunity))` (part_008 line 285):
    the subtraction and the multiplication each round once; `Math.floor` is
    exact.  `duration` and `cc` are the doubles held in the variables. -/
def freezeDurationF (duration cc : ℚ) : ℤ :=
  ⌊fpRound (duration * fpRound (1 - cc))⌋

/-- `Enemy.freeze(duration)` (part_008 lines 283-293) with the duration
    computed in IEEE-754 double semantics, as the JavaScript source does. -/
def freezeF (e : Enemy) (duration now : ℚ) : Enemy :=
  let actualDuration : ℤ := freezeDurationF duration e.ccImmunity
  if actualDuration < 200 then e
  else { e with isFrozen := true,
                freezeEndTime := now + (actualDuration : ℚ),
                status := some StatusType.frozen }

/-- The boss with its `ccImmunity` field holding the binary64 double stored
    for the source literal `0.8` (`ENEMY_TYPE_CONFIGS.boss`). -/
def bossF : Enemy := { bossE with ccImmunity := fpRound (4/5) }

/- ------------------------------------------------------------------ -/
/- Shared lemmas                                                      -/
/- ------------------------------------------------------------------ -/

@[simp]
lemma Enemy.applyHp_id (e : Enemy) (d : ℚ) : (e.applyHp d).id = e.id := by
  unfold Enemy.applyHp
  dsimp only
  split <;> rfl

@[simp]
lemma Enemy.takeDamage_id (e : Enemy) (d : ℚ) (el : Option ElementType) :
    (e.takeDamage d el).1.id = e.id := by
  unfold Enemy.takeDamage
  split
  · simp
  · split <;> simp

@[simp]
lemma Enemy.clearStatus_id (e : Enemy) : e.clearStatus.id = e.id := rfl

@[simp]
lemma Enemy.applyStatus_id (e : Enemy) (s : StatusType) (d : ℚ) :
    (e.applyStatus s d).id = e.id := rfl

@[simp]
lemma Enemy.freeze_id (e : Enemy) (T now : ℚ) : (e.freeze T now).id = e.id := by
  unfold Enemy.freeze
  dsimp only
  split <;> rfl

lemma lookupEnemy_updateEnemy (es : List Enemy) (i : Nat) (f : Enemy → Enemy)
    (hid : ∀ e, (f e).id = e.id) :
    lookupEnemy (updateEnemy es i f) i = (lookupEnemy es i).map f := by
  induction es with
  | nil => rfl
  | cons a es ih =>
      by_cases h : a.id = i
      · simp [lookupEnemy, updateEnemy, List.find?_cons, h, hid]
      · simpa [lookupEnemy, updateEnemy, List.find?_cons, h, hid] using ih

lemma mem_updateEnemy_of_ne (es : List Enemy) (i : Nat) (f : Enemy → Enemy)
    (x : Enemy) (hx : x ∈ es) (hne : x.id ≠ i) : x ∈ updateEnemy es i f := by
  unfold updateEnemy
  exact List.mem_map.mpr ⟨x, hx, by simp [hne]⟩

lemma lookupEnemy_mem {es : List Enemy} {i : Nat} {e : Enemy}
    (h : lookupEnemy es i = some e) : e ∈ es :=
  List.mem_of_find?_eq_some h

/- ------------------------------------------------------------------ -/
/- Concrete entities used by witnesses and counterexamples            -/
/- ------------------------------------------------------------------ -/

/- ------------------------------------------------------------------ -/
/- C3: freeze duration under CC immunity                              -/
/- ------------------------------------------------------------------ -/

lemma freeze_spec (e : Enemy) (T now : ℚ) :
    (200 ≤ ⌊T * (1 - e.ccImmunity)⌋ →
      (e.freeze T now).isFrozen = true ∧
      (e.freeze T now).freezeEndTime = now + (⌊T * (1 - e.ccImmunity)⌋ : ℚ)) ∧
    (⌊T * (1 - e.ccImmunity)⌋ < 200 → e.freeze T now = e) := by
  unfold Enemy.freeze
  dsimp only
  refine ⟨fun h => ?_, fun h => ?_⟩
  · rw [if_neg (not_lt.mpr h)]
    exact ⟨rfl, rfl⟩
  · rw [if_pos h]

lemma Int_log_eq_of_bracket {r : ℚ} {z : ℤ} (hr : 0 < r)
    (h1 : (2 : ℚ) ^ z ≤ r) (h2 : r < (2 : ℚ) ^ (z + 1)) : Int.log 2 r = z := by
  have ha : z ≤ Int.log 2 r := (Int.zpow_le_iff_le_log (by norm_num) hr).mp h1
  have hb : Int.log 2 r < z + 1 :=
    (Int.lt_zpow_iff_log_lt (by norm_num) hr).mp h2
  omega

lemma fpRound_pos (x : ℚ) (z : ℤ) (hx : 0 < x)
    (h1 : (2 : ℚ) ^ z ≤ x) (h2 : x < (2 : ℚ) ^ (z + 1)) :
    fpRound x = (rne (x * (2 : ℚ) ^ (52 - z)) : ℚ) * (2 : ℚ) ^ (z - 52) := by
  unfold fpRound
  rw [if_neg hx.ne', abs_of_pos hx, Int_log_eq_of_bracket hx h1 h2,
    if_pos hx.le]
  ring

/-- The binary64 double stored for the decimal literal `0.8` is
    `3602879701896397 · 2⁻⁵²` (≈ 0.8000000000000000444). -/
lemma fpRound_08 : fpRound (4/5) = 3602879701896397 / 2^52 := by
  rw [fpRound_pos (4/5) (-1) (by norm_num) (by norm_num) (by norm_num)]
  have hm : (4/5 : ℚ) * (2 : ℚ) ^ (52 - (-1) : ℤ) = 36028797018963968/5 := by
    norm_num
  rw [hm]
  have hfl : ⌊(36028797018963968/5 : ℚ)⌋ = 7205759403792793 := by
    rw [Int.floor_eq_iff]
    constructor <;> norm_num
  unfold rne
  rw [hfl]
  rw [if_neg (by norm_num), if_pos (by norm_num)]
  norm_num

/-- `1 ⊖ 0.8` is exact in binary64 (Sterbenz):
    `900719925474099 · 2⁻⁵²` (≈ 0.19999999999999996). -/
lemma fpRound_one_sub_08 :
    fpRound (1 - 3602879701896397 / 2^52) = 900719925474099 / 2^52 := by
  have harg : (1 : ℚ) - 3602879701896397 / 2^52 = 900719925474099 / 2^52 := by
    norm_num
  rw [harg, fpRound_pos (900719925474099 / 2^52) (-3) (by norm_num)
    (by norm_num) (by norm_num)]
  have hm : (900719925474099 / 2^52 : ℚ) * (2 : ℚ) ^ (52 - (-3) : ℤ) =
      7205759403792792 := by
    norm_num
  rw [hm]
  have hfl : ⌊(7205759403792792 : ℚ)⌋ = 7205759403792792 := by norm_num
  unfold rne
  rw [hfl]
  rw [if_pos (by norm_num)]
  norm_num

/-- `2000 ⊗ (1 ⊖ 0.8)` rounds to `7036874417766398 · 2⁻⁴⁴`
    (= 399.99999999999994…), strictly below 400. -/
lemma fpRound_2000_mul :
    fpRound (2000 * (900719925474099 / 2^52)) = 7036874417766398 / 2^44 := by
  have harg : (2000 : ℚ) * (900719925474099 / 2^52) =
      1801439850948198000 / 2^52 := by
    norm_num
  rw [harg, fpRound_pos (1801439850948198000 / 2^52) 8 (by norm_num)
    (by norm_num) (by norm_num)]
  have hm : (1801439850948198000 / 2^52 : ℚ) * (2 : ℚ) ^ (52 - 8 : ℤ) =
      1801439850948198000 / 256 := by
    norm_num
  rw [hm]
  have hfl : ⌊(1801439850948198000 / 256 : ℚ)⌋ = 7036874417766398 := by
    rw [Int.floor_eq_iff]
    constructor <;> norm_num
  unfold rne
  rw [hfl]
  rw [if_pos (by norm_num)]
  norm_num

lemma floor_fl_2000_08 : ⌊(7036874417766398 / 2^44 : ℚ)⌋ = 399 := by
  rw [Int.floor_eq_iff]
  constructor <;> norm_num

/-- The program's `Math.floor(2000 * (1 - 0.8))` evaluates to 399, not 400:
    each arithmetic step in IEEE-754 binary64. -/
lemma freezeDurationF_2000_08 :
    freezeDurationF 2000 (fpRound (4/5)) = 399 := by
  unfold freezeDurationF
  rw [fpRound_08, fpRound_one_sub_08, fpRound_2000_mul, floor_fl_2000_08]

/-- C3 counterexample: for a boss carrying the stored double of the `0.8`
    CC-immunity literal, hit by a 2000ms freeze, the source's IEEE-754
    evaluation `Math.floor(2000 * (1 - 0.8))` yields 399ms — the enemy ends
    frozen until t = 399, not the exactly-400ms the claim asserts
    (`2000 * (1 - 0.8)` is `399.99999999999994` in binary64). -/
theorem freeze_cc_immunity_cex :
    freezeDurationF 2000 bossF.ccImmunity = 399 ∧
    (freezeF bossF 2000 0).isFrozen = true ∧
    (freezeF bossF 2000 0).freezeEndTime = 399 ∧
    (399 : ℚ) ≠ 400 := by
  have h399 : freezeDurationF 2000 bossF.ccImmunity = 399 :=
    freezeDurationF_2000_08
  have hfr : freezeF bossF 2000 0 =
      { bossF with isFrozen := true, freezeEndTime := 0 + ((399 : ℤ) : ℚ),
                   status := some StatusType.frozen } := by
    unfold freezeF
    rw [h399, if_neg (by norm_num)]
  refine ⟨h399, ?_, ?_, by norm_num⟩
  · rw [hfr]
  · rw [hfr]
    show (0 : ℚ) + ((399 : ℤ) : ℚ) = 399
    norm_num

/-- C3 (amended): `Enemy.freeze` computes the reduced duration as the
    IEEE-754 double evaluation `⌊fl(T ⊗ fl(1 ⊖ c))⌋`; when that reaches the
    200ms floor the enemy is frozen until `now` plus that duration — for the
    stored double of `c = 0.8` and `T = 2000`ms, exactly 399ms — and when it
    falls below 200ms the effect is discarded entirely (the enemy record is
    unchanged). -/
theorem freeze_cc_immunity_float (e : Enemy) (T now : ℚ) :
    (200 ≤ freezeDurationF T e.ccImmunity →
      (freezeF e T now).isFrozen = true ∧
      (freezeF e T now).freezeEndTime =
        now + (freezeDurationF T e.ccImmunity : ℚ)) ∧
    (freezeDurationF T e.ccImmunity < 200 → freezeF e T now = e) := by
  unfold freezeF
  dsimp only
  refine ⟨fun h => ?_, fun h => ?_⟩
  · rw [if_neg (not_lt.mpr h)]
    exact ⟨rfl, rfl⟩
  · rw [if_pos h]

/-- C3 witness: the boss with the stored double of `0.8`, hit by a 2000ms
    freeze, is frozen for exactly 399ms. -/
theorem freeze_cc_immunity_float_witness :
    200 ≤ freezeDurationF 2000 bossF.ccImmunity ∧
    (freezeF bossF 2000 0).isFrozen = true ∧
    (freezeF bossF 2000 0).freezeEndTime = 399 := by
  have h399 : freezeDurationF 2000 bossF.ccImmunity = 399 :=
    freezeDurationF_2000_08
  have h200 : 200 ≤ freezeDurationF 2000 bossF.ccImmunity := by
    rw [h399]
    norm_num
  have h := (freeze_cc_immunity_float bossF 2000 0).1 h200
  refine ⟨h200, h.1, ?_⟩
  rw [h.2, h399]
  norm_num

/- ------------------------------------------------------------------ -/
/- C5: target stickiness                                              -/
/- ------------------------------------------------------------------ -/

/-- C5: when the tower's current target is alive and within Euclidean range,
    `findTarget` keeps it, whatever the enemy list contains. -/
theorem target_stickiness (range : ℚ) (t : Enemy) (enemies : List Enemy)
    (dist : Nat → ℚ) (halive : t.isAlive = true) (hin : dist t.id ≤ range) :
    findTarget range (some t) enemies dist = some t := by
  simp [findTarget, halive, hin]

/-- C5 witness: a tower targeting the ghost keeps it even though a boss of
    strictly higher priority sits closer in range. -/
theorem target_stickiness_witness :
    ghostE.isAlive = true ∧ (fun i => if i = 1 then (50 : ℚ) else 5) ghostE.id ≤ 100 ∧
    findTarget 100 (some ghostE) [bossE, ghostE]
      (fun i => if i = 1 then (50 : ℚ) else 5) = some ghostE :=
  ⟨rfl, by norm_num [ghostE],
    target_stickiness 100 ghostE [bossE, ghostE]
      (fun i => if i = 1 then (50 : ℚ) else 5) rfl (by norm_num [ghostE])⟩

/- ------------------------------------------------------------------ -/
/- C8: evasion nullifies the hit                                      -/
/- ------------------------------------------------------------------ -/

/-- C8: in the per-hit pipeline of `Game.update` the evasion roll is made
    after collision (the pipeline only runs on a reported hit) and before the
    reaction check; when it procs, the hit is fully nullified: the enemy list
    is returned unchanged (no damage, no status change) and no reaction is
    triggered. -/
theorem evasion_nullifies (roll : ℚ) (targetId : Nat) (element : ElementType)
    (damage : ℚ) (enemies : List Enemy) (dist : Nat → ℚ) (now : ℚ)
    (e : Enemy) (hfind : lookupEnemy enemies targetId = some e)
    (hroll : e.tryEvade roll = true) :
    processHit roll targetId element damage enemies dist now =
      { enemies := enemies, reaction := none, evaded := true } := by
  simp [processHit, hfind, hroll]

/-- C8 witness: a ghost (evasion 0.5) with an evasion roll of 0.25 takes no
    damage, keeps its status, and triggers no reaction. -/
theorem evasion_nullifies_witness :
    lookupEnemy [ghostE] 1 = some ghostE ∧ ghostE.tryEvade (1/4) = true ∧
    processHit (1/4) 1 ElementType.fire 100 [ghostE] (fun _ => 0) 0 =
      { enemies := [ghostE], reaction := none, evaded := true } := by
  have h1 : lookupEnemy [ghostE] 1 = some ghostE := by
    simp [lookupEnemy, ghostE]
  have h2 : ghostE.tryEvade (1/4) = true := by
    simp only [Enemy.tryEvade, ghostE]
    norm_num
  exact ⟨h1, h2, evasion_nullifies (1/4) 1 ElementType.fire 100 [ghostE]
    (fun _ => 0) 0 ghostE h1 h2⟩

/- ------------------------------------------------------------------ -/
/- Reaction-table evaluation lemmas                                   -/
/- ------------------------------------------------------------------ -/

lemma find_reaction_ice_fire :
    REACTION_CONFIGS.find? (fun rc =>
      decide (rc.2.trigger.1 = StatusType.elem ElementType.ice ∧
              rc.2.trigger.2 = ElementType.fire)) =
    some (ReactionType.melt,
      { trigger := (StatusType.elem ElementType.ice, ElementType.fire),
        damageMultiplier := some 3, freezeDuration := none,
        explosionRadius := none }) := by
  rfl

lemma find_reaction_ice_lightning :
    REACTION_CONFIGS.find? (fun rc =>
      decide (rc.2.trigger.1 = StatusType.elem ElementType.ice ∧
              rc.2.trigger.2 = ElementType.lightning)) =
    some (ReactionType.freeze,
      { trigger := (StatusType.elem ElementType.ice, ElementType.lightning),
        damageMultiplier := none, freezeDuration := some 2000,
        explosionRadius := none }) := by
  rfl

lemma find_reaction_oil_fire :
    REACTION_CONFIGS.find? (fun rc =>
      decide (rc.2.trigger.1 = StatusType.oil ∧
              rc.2.trigger.2 = ElementType.fire)) =
    some (ReactionType.explosion,
      { trigger := (StatusType.oil, ElementType.fire),
        damageMultiplier := some (3/2), freezeDuration := none,
        explosionRadius := some 80 }) := by
  rfl

lemma checkAndTrigger_melt (targetId : Nat) (B : ℚ) (enemies : List Enemy)
    (dist : Nat → ℚ) (now : ℚ) (e : Enemy)
    (hfind : lookupEnemy enemies targetId = some e)
    (hstatus : e.status = some (StatusType.elem ElementType.ice)) :
    checkAndTriggerReaction targetId ElementType.fire B enemies dist now =
      (some { type := ReactionType.melt, damage := ((⌊B * 3⌋ : ℤ) : ℚ),
              affectedEnemies := [targetId] },
       updateEnemy enemies targetId
         fun x => ((x.takeDamage ((⌊B * 3⌋ : ℤ) : ℚ) none).1).clearStatus) := by
  unfold checkAndTriggerReaction
  rw [hfind]
  dsimp only
  rw [hstatus]
  dsimp only
  rw [find_reaction_ice_fire]
  rfl

lemma checkAndTrigger_freeze (targetId : Nat) (B : ℚ) (enemies : List Enemy)
    (dist : Nat → ℚ) (now : ℚ) (e : Enemy)
    (hfind : lookupEnemy enemies targetId = some e)
    (hstatus : e.status = some (StatusType.elem ElementType.ice)) :
    checkAndTriggerReaction targetId ElementType.lightning B enemies dist now =
      (some { type := ReactionType.freeze, damage := B,
              affectedEnemies := [targetId] },
       updateEnemy enemies targetId
         fun x => (x.freeze 2000 now).clearStatus) := by
  unfold checkAndTriggerReaction
  rw [hfind]
  dsimp only
  rw [hstatus]
  dsimp only
  rw [find_reaction_ice_lightning]
  rfl

lemma checkAndTrigger_explosion (targetId : Nat) (B : ℚ) (enemies : List Enemy)
    (dist : Nat → ℚ) (now : ℚ) (e : Enemy)
    (hfind : lookupEnemy enemies targetId = some e)
    (hstatus : e.status = some StatusType.oil) :
    checkAndTriggerReaction targetId ElementType.fire B enemies dist now =
      (some { type := ReactionType.explosion,
              damage := ((⌊B * (3/2)⌋ : ℤ) : ℚ),
              affectedEnemies := targetId ::
                (enemies.filter fun x =>
                  x.isAlive ∧ dist x.id ≤ 80 ∧ x.id ≠ targetId).map Enemy.id },
       updateEnemy
         (enemies.map fun x =>
           explosionStep ((⌊B * (3/2)⌋ : ℤ) : ℚ) 80 (dist x.id) x)
         targetId Enemy.clearStatus) := by
  unfold checkAndTriggerReaction
  rw [hfind]
  dsimp only
  rw [hstatus]
  dsimp only
  rw [find_reaction_oil_fire]
  rfl

lemma takeDamage_none (e : Enemy) (d : ℚ) :
    e.takeDamage d none = (e.applyHp d, d) := by
  unfold Enemy.takeDamage
  cases e.resistance <;> simp

lemma applyHp_health (e : Enemy) (d : ℚ) :
    (e.applyHp d).health =
      if e.health - d ≤ 0 then 0 else e.health - d := by
  unfold Enemy.applyHp
  dsimp only
  split <;> rfl

lemma applyHp_status (e : Enemy) (d : ℚ) : (e.applyHp d).status = e.status := by
  unfold Enemy.applyHp
  dsimp only
  split <;> rfl

/- ------------------------------------------------------------------ -/
/- C2: resistance reduction                                           -/
/- ------------------------------------------------------------------ -/

/-- C2 counterexample: a fire-resistant enemy with status `ice` (health 1000)
    hit by a fire projectile with nominal damage 100 triggers melt, and the
    reaction damage 300 is applied in full — the applied damage is not the
    fixed minimal value 1, contradicting the claim for damage applied through
    elemental reactions. -/
theorem resistance_reaction_cex :
    (processHit 1 3 ElementType.fire 100 [resistIceE]
        (fun _ => 0) 0).enemies.map Enemy.health = [700] ∧
    (processHit 1 3 ElementType.fire 100 [resistIceE]
        (fun _ => 0) 0).enemies.map Enemy.health ≠ [1000 - 1] := by
  have hfind : lookupEnemy [resistIceE] 3 = some resistIceE := rfl
  have hroll : resistIceE.tryEvade 1 = false := by
    simp only [Enemy.tryEvade, resistIceE]
    norm_num
  have hmelt := checkAndTrigger_melt 3 100 [resistIceE] (fun _ => 0) 0
    resistIceE hfind rfl
  have hfloor : ((⌊(100 : ℚ) * 3⌋ : ℤ) : ℚ) = 300 := by norm_num
  have hproc :
      (processHit 1 3 ElementType.fire 100 [resistIceE]
        (fun _ => 0) 0).enemies =
      [((resistIceE.takeDamage 300 none).1).clearStatus] := by
    simp only [processHit, hfind, hroll, Bool.false_eq_true, if_false]
    rw [hmelt]
    simp only [hfloor]
    rfl
  have hhp : ((resistIceE.takeDamage 300 none).1).clearStatus.health = 700 := by
    rw [takeDamage_none]
    show (resistIceE.applyHp 300).health = 700
    rw [applyHp_health]
    norm_num [resistIceE]
  rw [hproc]
  simp only [List.map_cons, List.map_nil, hhp]
  norm_num

/-- C2 (amended): the resistance check lives in `Enemy.takeDamage` and only
    fires when the attack element is passed: a direct non-physical hit whose
    element matches the enemy's resistance applies exactly 1 damage, a direct
    physical hit applies full nominal damage regardless of resistance, and a
    damage application without an attack element — which is how
    `ReactionSystem.executeReaction` applies all reaction damage — applies
    the full amount, bypassing resistance. -/
theorem resistance_damage_rules (e : Enemy) (D : ℚ) :
    (∀ E, E ≠ ElementType.physical → e.resistance = some E →
      (e.takeDamage D (some E)).2 = 1) ∧
    (e.takeDamage D (some ElementType.physical)).2 = D ∧
    (e.takeDamage D none).2 = D := by
  refine ⟨fun E hE hres => ?_, ?_, ?_⟩
  · unfold Enemy.takeDamage
    rw [hres]
    simp [hE]
  · unfold Enemy.takeDamage
    simp
  · rw [takeDamage_none]

/-- C2 witness: concrete instances of the three amended cases, on the
    fire-resistant enemy. -/
theorem resistance_damage_rules_witness :
    ElementType.fire ≠ ElementType.physical ∧
    resistIceE.resistance = some ElementType.fire ∧
    (resistIceE.takeDamage 100 (some ElementType.fire)).2 = 1 ∧
    (resistIceE.takeDamage 100 (some ElementType.physical)).2 = 100 ∧
    (resistIceE.takeDamage 100 none).2 = 100 := by
  refine ⟨by decide, by decide, ?_, ?_, ?_⟩
  · exact (resistance_damage_rules resistIceE 100).1 ElementType.fire
      (by decide) (by decide)
  · exact (resistance_damage_rules resistIceE 100).2.1
  · exact (resistance_damage_rules resistIceE 100).2.2

/- ------------------------------------------------------------------ -/
/- C10: freeze under the 200ms floor still consumes the status        -/
/- ------------------------------------------------------------------ -/

/-- C10: an ice-tagged enemy hit by lightning whose CC immunity satisfies
    `⌊2000·(1−c)⌋ < 200` still triggers the freeze reaction and loses its ice
    status, but is never immobilized: `isFrozen` stays false, the freeze end
    time is untouched, health is untouched, and the incoming lightning does
    not become its status (the status ends as `none`). -/
theorem freeze_below_floor_consumes_status (targetId : Nat) (B now : ℚ)
    (enemies : List Enemy) (dist : Nat → ℚ) (e : Enemy)
    (hfind : lookupEnemy enemies targetId = some e)
    (hstatus : e.status = some (StatusType.elem ElementType.ice))
    (hcc : ⌊(2000 : ℚ) * (1 - e.ccImmunity)⌋ < 200)
    (hfr : e.isFrozen = false) :
    (∃ res,
      (checkAndTriggerReaction targetId ElementType.lightning B enemies
        dist now).1 = some res ∧ res.type = ReactionType.freeze) ∧
    lookupEnemy (checkAndTriggerReaction targetId ElementType.lightning B
        enemies dist now).2 targetId = some e.clearStatus ∧
    e.clearStatus.status = none ∧
    e.clearStatus.isFrozen = false ∧
    e.clearStatus.freezeEndTime = e.freezeEndTime ∧
    e.clearStatus.health = e.health := by
  rw [checkAndTrigger_freeze targetId B enemies dist now e hfind hstatus]
  have hfreeze : e.freeze 2000 now = e := (freeze_spec e 2000 now).2 hcc
  have hlookup :
      lookupEnemy (updateEnemy enemies targetId
        fun x => (x.freeze 2000 now).clearStatus) targetId =
      some ((e.freeze 2000 now).clearStatus) := by
    rw [lookupEnemy_updateEnemy enemies targetId _ (fun x => by simp), hfind]
    rfl
  refine ⟨⟨_, rfl, rfl⟩, ?_, rfl, ?_, rfl, rfl⟩
  · rw [hlookup, hfreeze]
  · simpa [Enemy.clearStatus] using hfr

/-- C10 witness: at `c = 0.95`, `⌊2000·(1−c)⌋ = 100 < 200`; the freeze
    reaction fires, the status is consumed, and the enemy is not frozen. -/
theorem freeze_below_floor_consumes_status_witness :
    (∃ res,
      (checkAndTriggerReaction 4 ElementType.lightning 100 [bossHighCC]
        (fun _ => 0) 0).1 = some res ∧ res.type = ReactionType.freeze) ∧
    lookupEnemy (checkAndTriggerReaction 4 ElementType.lightning 100
        [bossHighCC] (fun _ => 0) 0).2 4 = some bossHighCC.clearStatus ∧
    bossHighCC.clearStatus.status = none ∧
    bossHighCC.clearStatus.isFrozen = false ∧
    bossHighCC.clearStatus.freezeEndTime = bossHighCC.freezeEndTime ∧
    bossHighCC.clearStatus.health = bossHighCC.health :=
  freeze_below_floor_consumes_status 4 100 0 [bossHighCC] (fun _ => 0)
    bossHighCC rfl rfl
    (by norm_num [bossHighCC, bossE]) rfl

/- ------------------------------------------------------------------ -/
/- C1: melt replaces raw damage                                       -/
/- ------------------------------------------------------------------ -/

/-- C1: in the full per-hit pipeline of `Game.update`, a fire hit with base
    damage `B` on an ice-tagged enemy (that does not evade) triggers melt;
    the enemy's status ends as `none`, its health drops by exactly
    `⌊B·3⌋` (clamped at zero) — the reaction damage replaces the raw damage,
    which the caller never additionally applies — and every other enemy is
    untouched. -/
theorem melt_replaces_raw_damage (roll : ℚ) (targetId : Nat) (B : ℚ)
    (enemies : List Enemy) (dist : Nat → ℚ) (now : ℚ) (e : Enemy)
    (hfind : lookupEnemy enemies targetId = some e)
    (hstatus : e.status = some (StatusType.elem ElementType.ice))
    (hroll : e.tryEvade roll = false) :
    (∃ res,
      (processHit roll targetId ElementType.fire B enemies dist now).reaction
        = some res ∧
      res.type = ReactionType.melt ∧ res.damage = ((⌊B * 3⌋ : ℤ) : ℚ)) ∧
    (∃ e1,
      lookupEnemy (processHit roll targetId ElementType.fire B enemies dist
        now).enemies targetId = some e1 ∧
      e1.status = none ∧
      e1.health = (if e.health - ((⌊B * 3⌋ : ℤ) : ℚ) ≤ 0 then 0
                   else e.health - ((⌊B * 3⌋ : ℤ) : ℚ))) ∧
    (∀ x ∈ enemies, x.id ≠ targetId →
      x ∈ (processHit roll targetId ElementType.fire B enemies dist
        now).enemies) := by
  have hmelt := checkAndTrigger_melt targetId B enemies dist now e hfind hstatus
  have hproc :
      processHit roll targetId ElementType.fire B enemies dist now =
      { enemies := updateEnemy enemies targetId
          fun x => ((x.takeDamage ((⌊B * 3⌋ : ℤ) : ℚ) none).1).clearStatus,
        reaction := some { type := ReactionType.melt,
                           damage := ((⌊B * 3⌋ : ℤ) : ℚ),
                           affectedEnemies := [targetId] },
        evaded := false } := by
    simp only [processHit, hfind, hroll, Bool.false_eq_true, if_false]
    rw [hmelt]
  rw [hproc]
  refine ⟨⟨_, rfl, rfl, rfl⟩, ?_, ?_⟩
  · refine ⟨((e.takeDamage ((⌊B * 3⌋ : ℤ) : ℚ) none).1).clearStatus, ?_, rfl, ?_⟩
    · rw [lookupEnemy_updateEnemy enemies targetId _ (fun x => by simp), hfind]
      rfl
    · show ((e.takeDamage ((⌊B * 3⌋ : ℤ) : ℚ) none).1).clearStatus.health = _
      rw [takeDamage_none]
      show (e.applyHp ((⌊B * 3⌋ : ℤ) : ℚ)).health = _
      exact applyHp_health e _
  · intro x hx hne
    exact mem_updateEnemy_of_ne enemies targetId _ x hx hne

/-- C1 witness: an ice-tagged enemy with 1000 health hit by fire with base
    damage 100 takes exactly 300 and ends with status `none`. -/
theorem melt_replaces_raw_damage_witness :
    (∃ res,
      (processHit 1 2 ElementType.fire 100 [icyE] (fun _ => 0) 0).reaction
        = some res ∧
      res.type = ReactionType.melt ∧ res.damage = 300) ∧
    (∃ e1,
      lookupEnemy (processHit 1 2 ElementType.fire 100 [icyE] (fun _ => 0)
        0).enemies 2 = some e1 ∧
      e1.status = none ∧ e1.health = 700) := by
  have hroll : icyE.tryEvade 1 = false := by
    simp only [Enemy.tryEvade, icyE]
    norm_num
  have h := melt_replaces_raw_damage 1 2 100 [icyE] (fun _ => 0) 0 icyE
    rfl rfl hroll
  have hfloor : ((⌊(100 : ℚ) * 3⌋ : ℤ) : ℚ) = 300 := by norm_num
  refine ⟨?_, ?_⟩
  · obtain ⟨res, h1, h2, h3⟩ := h.1
    exact ⟨res, h1, h2, by rw [h3, hfloor]⟩
  · obtain ⟨e1, h1, h2, h3⟩ := h.2.1
    refine ⟨e1, h1, h2, ?_⟩
    rw [h3, hfloor]
    norm_num [icyE]

/- ------------------------------------------------------------------ -/
/- C4: explosion falloff                                              -/
/- ------------------------------------------------------------------ -/

lemma explosionStep_id (t r d : ℚ) (e : Enemy) :
    (explosionStep t r d e).id = e.id := by
  unfold explosionStep
  dsimp only
  split
  · split
    · split <;> simp
    · rfl
  · rfl

lemma lookupEnemy_map (es : List Enemy) (i : Nat) (g : Enemy → Enemy)
    (hid : ∀ e, (g e).id = e.id) :
    lookupEnemy (es.map g) i = (lookupEnemy es i).map g := by
  induction es with
  | nil => rfl
  | cons a es ih =>
      by_cases h : a.id = i
      · simp [lookupEnemy, List.find?_cons, h, hid]
      · simpa [lookupEnemy, List.find?_cons, h, hid] using ih

lemma lookupEnemy_id {es : List Enemy} {i : Nat} {e : Enemy}
    (h : lookupEnemy es i = some e) : e.id = i := by
  have := List.find?_some h
  exact of_decide_eq_true this

lemma explosionStep_in_radius (t r d : ℚ) (x : Enemy)
    (halive : x.isAlive = true) (hd : d ≤ r) :
    explosionStep t r d x =
      (if (x.applyHp ((⌊t * (1 - d / r * (1/2))⌋ : ℤ) : ℚ)).status =
          some StatusType.oil then
        (x.applyHp ((⌊t * (1 - d / r * (1/2))⌋ : ℤ) : ℚ)).clearStatus
      else x.applyHp ((⌊t * (1 - d / r * (1/2))⌋ : ℤ) : ℚ)) := by
  unfold explosionStep
  rw [if_pos halive, if_pos hd]
  dsimp only
  rw [takeDamage_none]

lemma explosionStep_health (t r d : ℚ) (x : Enemy)
    (halive : x.isAlive = true) (hd : d ≤ r) :
    (explosionStep t r d x).health =
      (if x.health - ((⌊t * (1 - d / r * (1/2))⌋ : ℤ) : ℚ) ≤ 0 then 0
       else x.health - ((⌊t * (1 - d / r * (1/2))⌋ : ℤ) : ℚ)) := by
  rw [explosionStep_in_radius t r d x halive hd]
  split
  · show (x.applyHp _).clearStatus.health = _
    show (x.applyHp _).health = _
    exact applyHp_health x _
  · exact applyHp_health x _

lemma explosionStep_clears_oil (t r d : ℚ) (x : Enemy)
    (halive : x.isAlive = true) (hd : d ≤ r)
    (hoil : x.status = some StatusType.oil) :
    (explosionStep t r d x).status = none := by
  rw [explosionStep_in_radius t r d x halive hd]
  rw [if_pos (by rw [applyHp_status]; exact hoil)]
  rfl

lemma explosionStep_out_of_radius (t r d : ℚ) (x : Enemy) (hd : r < d) :
    explosionStep t r d x = x := by
  unfold explosionStep
  dsimp only
  split
  · rw [if_neg (not_le.mpr hd)]
  · rfl

/-- C4: a fire hit with base damage `B` on a living oil-tagged enemy triggers
    the explosion; the reaction damage is `⌊B·1.5⌋`; the primary (at the
    epicenter, distance 0) takes the full reaction damage and loses its
    status; every other living enemy within the 80px radius takes
    `⌊total·(1 − d/80·0.5)⌋` (linear falloff) — exactly `⌊total·0.5⌋` at
    distance 80 — and has an oil tag cleared; an enemy strictly outside the
    radius is untouched. -/
theorem explosion_falloff (targetId : Nat) (B now : ℚ)
    (enemies : List Enemy) (dist : Nat → ℚ) (p : Enemy)
    (hfind : lookupEnemy enemies targetId = some p)
    (hstatus : p.status = some StatusType.oil)
    (halive : p.isAlive = true)
    (hd0 : dist targetId = 0) :
    (∃ res,
      (checkAndTriggerReaction targetId ElementType.fire B enemies dist
        now).1 = some res ∧
      res.type = ReactionType.explosion ∧
      res.damage = ((⌊B * (3/2)⌋ : ℤ) : ℚ)) ∧
    (∃ p1,
      lookupEnemy (checkAndTriggerReaction targetId ElementType.fire B enemies
        dist now).2 targetId = some p1 ∧
      p1.status = none ∧
      p1.health = (if p.health - ((⌊B * (3/2)⌋ : ℤ) : ℚ) ≤ 0 then 0
                   else p.health - ((⌊B * (3/2)⌋ : ℤ) : ℚ))) ∧
    (∀ x ∈ enemies, x.id ≠ targetId →
      (x.isAlive = true → dist x.id ≤ 80 →
        ∃ x1, x1 ∈ (checkAndTriggerReaction targetId ElementType.fire B
            enemies dist now).2 ∧ x1.id = x.id ∧
          x1.health =
            (if x.health -
                ((⌊((⌊B * (3/2)⌋ : ℤ) : ℚ) *
                   (1 - dist x.id / 80 * (1/2))⌋ : ℤ) : ℚ) ≤ 0 then 0
             else x.health -
                ((⌊((⌊B * (3/2)⌋ : ℤ) : ℚ) *
                   (1 - dist x.id / 80 * (1/2))⌋ : ℤ) : ℚ)) ∧
          (dist x.id = 80 →
            x1.health =
              (if x.health - ((⌊((⌊B * (3/2)⌋ : ℤ) : ℚ) * (1/2)⌋ : ℤ) : ℚ) ≤ 0
               then 0
               else x.health -
                 ((⌊((⌊B * (3/2)⌋ : ℤ) : ℚ) * (1/2)⌋ : ℤ) : ℚ))) ∧
          (x.status = some StatusType.oil → x1.status = none)) ∧
      (80 < dist x.id → x ∈ (checkAndTriggerReaction targetId ElementType.fire
        B enemies dist now).2)) := by
  have hpid : p.id = targetId := lookupEnemy_id hfind
  rw [checkAndTrigger_explosion targetId B enemies dist now p hfind hstatus]
  dsimp only
  have hstepid : ∀ e : Enemy,
      (explosionStep ((⌊B * (3/2)⌋ : ℤ) : ℚ) 80 (dist e.id) e).id = e.id :=
    fun e => explosionStep_id _ _ _ e
  refine ⟨⟨_, rfl, rfl, rfl⟩, ?_, ?_⟩
  · -- primary target
    refine ⟨(explosionStep ((⌊B * (3/2)⌋ : ℤ) : ℚ) 80 (dist p.id)
      p).clearStatus, ?_, rfl, ?_⟩
    · rw [lookupEnemy_updateEnemy _ targetId _ (fun e => by simp),
        lookupEnemy_map enemies targetId _ hstepid, hfind]
      rfl
    · show (explosionStep ((⌊B * (3/2)⌋ : ℤ) : ℚ) 80 (dist p.id) p).health = _
      rw [hpid, hd0]
      rw [explosionStep_health _ _ _ p halive (by norm_num)]
      have : ((⌊((⌊B * (3/2)⌋ : ℤ) : ℚ) * (1 - 0 / 80 * (1/2))⌋ : ℤ) : ℚ) =
          ((⌊B * (3/2)⌋ : ℤ) : ℚ) := by
        norm_num
      rw [this]
  · -- other enemies
    intro x hx hne
    have hximg : explosionStep ((⌊B * (3/2)⌋ : ℤ) : ℚ) 80 (dist x.id) x ∈
        updateEnemy (enemies.map fun y =>
          explosionStep ((⌊B * (3/2)⌋ : ℤ) : ℚ) 80 (dist y.id) y) targetId
          Enemy.clearStatus := by
      apply mem_updateEnemy_of_ne
      · exact List.mem_map_of_mem _ hx
      · rw [hstepid x]; exact hne
    constructor
    · intro hxalive hxin
      refine ⟨explosionStep ((⌊B * (3/2)⌋ : ℤ) : ℚ) 80 (dist x.id) x, hximg,
        hstepid x, ?_, ?_, ?_⟩
      · exact explosionStep_health _ _ _ x hxalive hxin
      · intro h80
        rw [explosionStep_health _ _ _ x hxalive hxin, h80]
        norm_num
      · intro hoil
        exact explosionStep_clears_oil _ _ _ x hxalive hxin hoil
    · intro hxout
      have : explosionStep ((⌊B * (3/2)⌋ : ℤ) : ℚ) 80 (dist x.id) x = x :=
        explosionStep_out_of_radius _ _ _ x hxout
      rw [← this]
      exact hximg

/-- C4 witness: base damage 100 on the oil primary deals the full reaction
    damage 150 at distance 0 (health 1000 → 850, status cleared), 75 at
    exactly the 80px radius (health 500 → 425, oil tag cleared), and nothing
    strictly outside (the enemy at 81px is unchanged). -/
theorem explosion_falloff_witness :
    (∃ res,
      (checkAndTriggerReaction 10 ElementType.fire 100 [oilPrimE, oilNearE,
        farE] distW 0).1 = some res ∧
      res.type = ReactionType.explosion ∧ res.damage = 150) ∧
    (∃ p1,
      lookupEnemy (checkAndTriggerReaction 10 ElementType.fire 100 [oilPrimE,
        oilNearE, farE] distW 0).2 10 = some p1 ∧
      p1.status = none ∧ p1.health = 850) ∧
    (∃ x1,
      x1 ∈ (checkAndTriggerReaction 10 ElementType.fire 100 [oilPrimE,
        oilNearE, farE] distW 0).2 ∧
      x1.id = 11 ∧ x1.health = 425 ∧ x1.status = none) ∧
    farE ∈ (checkAndTriggerReaction 10 ElementType.fire 100 [oilPrimE,
      oilNearE, farE] distW 0).2 := by
  have h := explosion_falloff 10 100 0 [oilPrimE, oilNearE, farE] distW
    oilPrimE rfl rfl rfl rfl
  obtain ⟨⟨res, h1, h2, h3⟩, ⟨p1, h4, h5, h6⟩, h7⟩ := h
  have hdam : ((⌊(100 : ℚ) * (3/2)⌋ : ℤ) : ℚ) = 150 := by norm_num
  have hnear := (h7 oilNearE (by simp) (by norm_num [oilNearE, oilPrimE])).1
    rfl (by norm_num [distW, oilNearE, oilPrimE])
  obtain ⟨x1, hx1mem, hx1id, _, hx1h80, hx1oil⟩ := hnear
  have hfar := (h7 farE (by simp) (by norm_num [farE, oilPrimE])).2
    (by norm_num [distW, farE, oilPrimE])
  refine ⟨⟨res, h1, h2, by rw [h3, hdam]⟩,
          ⟨p1, h4, h5, ?_⟩,
          ⟨x1, hx1mem, by rw [hx1id]; rfl, ?_, hx1oil rfl⟩, hfar⟩
  · rw [h6, hdam]
    norm_num [oilPrimE]
  · have hd80 : distW oilNearE.id = 80 := by norm_num [distW, oilNearE, oilPrimE]
    rw [hx1h80 hd80, hdam]
    norm_num [oilNearE, oilPrimE]

/- ------------------------------------------------------------------ -/
/- C6: target selection order                                         -/
/- ------------------------------------------------------------------ -/

lemma dominates_refl (dist : Nat → ℚ) (a : Enemy) : dominates dist a a :=
  Or.inr ⟨rfl, le_refl _⟩

lemma dominates_trans (dist : Nat → ℚ) {a b c : Enemy}
    (h1 : dominates dist a b) (h2 : dominates dist b c) :
    dominates dist a c := by
  rcases h1 with h1 | ⟨h1, h1d⟩ <;> rcases h2 with h2 | ⟨h2, h2d⟩
  · exact Or.inl (h2.trans h1)
  · exact Or.inl (h2 ▸ h1)
  · exact Or.inl (h1 ▸ h2)
  · exact Or.inr ⟨h2.trans h1, h1d.trans h2d⟩

lemma selectLoop_master (range : ℚ) (dist : Nat → ℚ) (es : List Enemy) :
    ∀ b : Option Enemy,
    ∃ b1 : Option Enemy,
      selectLoop range dist es b (accPriority b) (accClosest dist b) = b1 ∧
      (b1 = b ∨ ∃ e ∈ es, b1 = some e ∧ e.isAlive = true ∧ dist e.id ≤ range) ∧
      (b1 = none →
        b = none ∧ ∀ e ∈ es, ¬(e.isAlive = true ∧ dist e.id ≤ range)) ∧
      (∀ b0, b = some b0 → ∃ r0, b1 = some r0 ∧ dominates dist r0 b0) ∧
      (∀ r0, b1 = some r0 → ∀ e ∈ es, e.isAlive = true → dist e.id ≤ range →
        dominates dist r0 e) := by
  induction es with
  | nil =>
      intro b
      refine ⟨b, rfl, Or.inl rfl, fun h => ⟨h, by simp⟩,
        fun b0 hb => ⟨b0, hb, dominates_refl dist b0⟩, ?_⟩
      intro r0 _ e he
      exact absurd he (List.not_mem_nil e)
  | cons e rest ih =>
      intro b
      by_cases halive : e.isAlive = false
      · -- dead enemy: skipped
        obtain ⟨b1, heq, hprov, hnone, hdom, hall⟩ := ih b
        refine ⟨b1, ?_, ?_, ?_, hdom, ?_⟩
        · rw [selectLoop, if_pos halive]; exact heq
        · rcases hprov with h | ⟨x, hx, hprop⟩
          · exact Or.inl h
          · exact Or.inr ⟨x, List.mem_cons_of_mem e hx, hprop⟩
        · intro h
          obtain ⟨hb, hrest⟩ := hnone h
          refine ⟨hb, fun x hx => ?_⟩
          rcases List.mem_cons.mp hx with rfl | hx
          · rintro ⟨ha, -⟩; rw [ha] at halive; exact Bool.true_eq_false.mp halive
          · exact hrest x hx
        · intro r0 hr0 x hx hxa hxd
          rcases List.mem_cons.mp hx with rfl | hx
          · rw [hxa] at halive; exact absurd halive (by simp)
          · exact hall r0 hr0 x hx hxa hxd
      · have halive' : e.isAlive = true := by
          revert halive; cases e.isAlive <;> simp
        by_cases hfar : range < dist e.id
        · -- out of range: skipped
          obtain ⟨b1, heq, hprov, hnone, hdom, hall⟩ := ih b
          refine ⟨b1, ?_, ?_, ?_, hdom, ?_⟩
          · rw [selectLoop, if_neg (by simp [halive']), if_pos hfar]; exact heq
          · rcases hprov with h | ⟨x, hx, hprop⟩
            · exact Or.inl h
            · exact Or.inr ⟨x, List.mem_cons_of_mem e hx, hprop⟩
          · intro h
            obtain ⟨hb, hrest⟩ := hnone h
            refine ⟨hb, fun x hx => ?_⟩
            rcases List.mem_cons.mp hx with rfl | hx
            · rintro ⟨-, hd⟩; exact absurd hd (not_le.mpr hfar)
            · exact hrest x hx
          · intro r0 hr0 x hx hxa hxd
            rcases List.mem_cons.mp hx with rfl | hx
            · exact absurd hxd (not_le.mpr hfar)
            · exact hall r0 hr0 x hx hxa hxd
        · have hin : dist e.id ≤ range := not_lt.mp hfar
          by_cases haccept : accPriority b < e.priority ∨
              (e.priority = accPriority b ∧
                closerThan (dist e.id) (accClosest dist b))
          · -- accepted: the accumulator becomes `e`
            obtain ⟨b1, heq, hprov, hnone, hdom, hall⟩ := ih (some e)
            have hstep :
                selectLoop range dist (e :: rest) b (accPriority b)
                  (accClosest dist b) = b1 := by
              rw [selectLoop, if_neg (by simp [halive']), if_neg (not_lt.mpr hin),
                if_pos haccept]
              exact heq
            obtain ⟨r0, hr0, hr0dom⟩ := hdom e rfl
            refine ⟨b1, hstep, ?_, ?_, ?_, ?_⟩
            · rcases hprov with h | ⟨x, hx, hprop⟩
              · exact Or.inr ⟨e, List.mem_cons_self e rest,
                  h, halive', hin⟩
              · exact Or.inr ⟨x, List.mem_cons_of_mem e hx, hprop⟩
            · intro h
              rw [h] at hr0
              exact absurd hr0 (by simp)
            · intro b0 hb0
              -- the acceptance test certifies that `e` beats the old best
              refine ⟨r0, hr0, ?_⟩
              have hbeats : dominates dist e b0 := by
                rw [hb0] at haccept
                rcases haccept with h | ⟨h1, h2⟩
                · exact Or.inl h
                · have hlt : dist e.id < dist b0.id := by
                    simpa [closerThan, accClosest] using h2
                  have h1' : e.priority = b0.priority := by
                    simpa [accPriority] using h1
                  exact Or.inr ⟨h1'.symm, le_of_lt hlt⟩
              exact dominates_trans dist hr0dom hbeats
            · intro r1 hr1 x hx hxa hxd
              rcases List.mem_cons.mp hx with rfl | hx
              · rw [hr1] at hr0
                cases Option.some.inj hr0
                exact hr0dom
              · exact hall r1 hr1 x hx hxa hxd
          · -- rejected: the old best beats `e`
            have hb0 : ∃ b0, b = some b0 := by
              cases b with
              | none =>
                  exfalso
                  apply haccept
                  rcases Nat.eq_zero_or_pos e.priority with h | h
                  · exact Or.inr ⟨by simpa [accPriority] using h,
                      by simp [closerThan, accClosest]⟩
                  · exact Or.inl (by simpa [accPriority] using h)
              | some b0 => exact ⟨b0, rfl⟩
            obtain ⟨b0, rfl⟩ := hb0
            have hb0beats : dominates dist b0 e := by
              rcases Nat.lt_trichotomy e.priority b0.priority with h | h | h
              · exact Or.inl h
              · refine Or.inr ⟨h, ?_⟩
                by_contra hcon
                exact haccept (Or.inr ⟨by simpa [accPriority] using h,
                  by simpa [closerThan, accClosest] using not_le.mp hcon⟩)
              · exact absurd (Or.inl (by simpa [accPriority] using h)) haccept
            obtain ⟨b1, heq, hprov, hnone, hdom, hall⟩ := ih (some b0)
            have hstep :
                selectLoop range dist (e :: rest) (some b0)
                  (accPriority (some b0)) (accClosest dist (some b0)) = b1 := by
              rw [selectLoop, if_neg (by simp [halive']), if_neg (not_lt.mpr hin),
                if_neg haccept]
              exact heq
            obtain ⟨r0, hr0, hr0dom⟩ := hdom b0 rfl
            refine ⟨b1, hstep, ?_, ?_, ?_, ?_⟩
            · rcases hprov with h | ⟨x, hx, hprop⟩
              · exact Or.inl h
              · exact Or.inr ⟨x, List.mem_cons_of_mem e hx, hprop⟩
            · intro h
              rw [h] at hr0
              exact absurd hr0 (by simp)
            · intro b0' hb0'
              cases Option.some.inj hb0'
              exact ⟨r0, hr0, hr0dom⟩
            · intro r1 hr1 x hx hxa hxd
              rcases List.mem_cons.mp hx with rfl | hx
              · rw [hr1] at hr0
                cases Option.some.inj hr0
                exact dominates_trans dist hr0dom hb0beats
              · exact hall r1 hr1 x hx hxa hxd

/-- C6: when the tower has no valid current target, `findTarget` skips dead
    and out-of-range enemies; it returns `none` exactly when no live in-range
    candidate exists, and otherwise returns a candidate of maximal priority,
    with ties broken towards strictly smaller distance; with no target,
    `tryFire` returns no projectile. -/
theorem target_selection (range : ℚ) (dist : Nat → ℚ) (enemies : List Enemy) :
    (findTarget range none enemies dist = none ↔
      ∀ e ∈ enemies, ¬(e.isAlive = true ∧ dist e.id ≤ range)) ∧
    (∀ t, findTarget range none enemies dist = some t →
      (t ∈ enemies ∧ t.isAlive = true ∧ dist t.id ≤ range) ∧
      ∀ e ∈ enemies, e.isAlive = true → dist e.id ≤ range →
        e.priority < t.priority ∨
          (e.priority = t.priority ∧ dist t.id ≤ dist e.id)) ∧
    (∀ (tw : Tower) (now : ℚ) (d2 : Nat → ℚ), tw.currentTarget = none →
      (tryFire tw now d2).1 = none) := by
  obtain ⟨b1, heq, hprov, hnone, _, hall⟩ :=
    selectLoop_master range dist enemies none
  have hft : findTarget range none enemies dist = b1 := by
    simpa [findTarget, accPriority, accClosest] using heq
  refine ⟨⟨?_, ?_⟩, ?_, ?_⟩
  · intro h
    rw [hft] at h
    exact (hnone h).2
  · intro h
    rw [hft]
    rcases hprov with hb | ⟨x, hx, _, hxa, hxd⟩
    · exact hb
    · exact (h x hx ⟨hxa, hxd⟩).elim
  · intro t ht
    rw [hft] at ht
    rcases hprov with hb | ⟨x, hx, hxeq, hxa, hxd⟩
    · rw [ht] at hb
      cases hb
    · have hx_t : x = t := by
        rw [ht] at hxeq
        exact Option.some.inj hxeq.symm
      subst hx_t
      refine ⟨⟨hx, hxa, hxd⟩, ?_⟩
      intro e he hea hed
      exact hall x ht e he hea hed
  · intro tw now d2 htar
    simp only [tryFire, htar]
    split
    · split
      · rfl
      · rfl
    · rfl

/-- C6 witness: among a dead boss, a close normal (priority 1) and two tanks
    (priority 3) at 70px and 60px, selection picks the closer tank; the
    chosen target has maximal priority and minimal distance among its
    priority class; and a targetless tower fires nothing. -/
theorem target_selection_witness :
    findTarget 100 none [deadBossE, normalNearE, tankFarE, tankNearE] distSel
      = some tankNearE ∧
    (tankNearE ∈ [deadBossE, normalNearE, tankFarE, tankNearE] ∧
      tankNearE.isAlive = true ∧ distSel tankNearE.id ≤ 100) ∧
    (∀ e ∈ [deadBossE, normalNearE, tankFarE, tankNearE],
      e.isAlive = true → distSel e.id ≤ 100 →
      e.priority < tankNearE.priority ∨
        (e.priority = tankNearE.priority ∧
          distSel tankNearE.id ≤ distSel e.id)) ∧
    (tryFire towerIdle 0 (fun _ => 0)).1 = none := by
  have hsel : findTarget 100 none [deadBossE, normalNearE, tankFarE,
      tankNearE] distSel = some tankNearE := by
    rfl
  have h := target_selection 100 distSel
    [deadBossE, normalNearE, tankFarE, tankNearE]
  have h2 := h.2.1 tankNearE hsel
  exact ⟨hsel, h2.1, h2.2, h.2.2 towerIdle 0 (fun _ => 0) rfl⟩

/- ------------------------------------------------------------------ -/
/- C9: the melee attack pass                                          -/
/- ------------------------------------------------------------------ -/

lemma meleeScan_event_id (now : ℚ) (distET : Nat → Nat → ℚ) (e : Enemy) :
    ∀ (ts : List Tower) (ev : Nat × Nat),
      (meleeScan now distET e ts).2.2 = some ev → ev.1 = e.id := by
  intro ts
  induction ts with
  | nil => intro ev h; cases h
  | cons tw rest ih =>
      intro ev h
      rw [meleeScan] at h
      by_cases hdead : tw.isAlive = false
      · rw [if_pos hdead] at h
        rcases hrec : meleeScan now distET e rest with ⟨e1, rest1, ev1⟩
        rw [hrec] at h
        dsimp only at h
        exact ih ev (by rw [hrec]; exact h)
      · rw [if_neg hdead] at h
        by_cases hd : distET e.id tw.id < GRID_SIZE * (3/2)
        · rw [if_pos hd] at h
          dsimp only at h
          cases Option.some.inj h
          rfl
        · rw [if_neg hd] at h
          rcases hrec : meleeScan now distET e rest with ⟨e1, rest1, ev1⟩
          rw [hrec] at h
          dsimp only at h
          exact ih ev (by rw [hrec]; exact h)

lemma meleeScan_hits (now : ℚ) (distET : Nat → Nat → ℚ) (e : Enemy) :
    ∀ ts : List Tower,
      (∃ tw ∈ ts, tw.isAlive = true ∧
        distET e.id tw.id < GRID_SIZE * (3/2)) →
      ∃ tw ∈ ts, tw.isAlive = true ∧
        distET e.id tw.id < GRID_SIZE * (3/2) ∧
        (meleeScan now distET e ts).2.2 = some (e.id, tw.id) := by
  intro ts
  induction ts with
  | nil => rintro ⟨tw, htw, -⟩; exact absurd htw (List.not_mem_nil tw)
  | cons tw rest ih =>
      rintro ⟨w, hw, hwa, hwd⟩
      by_cases hdead : tw.isAlive = false
      · have hwrest : w ∈ rest := by
          rcases List.mem_cons.mp hw with rfl | h
          · rw [hwa] at hdead; exact absurd hdead (by simp)
          · exact h
        obtain ⟨w1, hw1, hw1a, hw1d, hw1ev⟩ := ih ⟨w, hwrest, hwa, hwd⟩
        refine ⟨w1, List.mem_cons_of_mem tw hw1, hw1a, hw1d, ?_⟩
        rw [meleeScan, if_pos hdead]
        rcases hrec : meleeScan now distET e rest with ⟨e1, rest1, ev1⟩
        rw [hrec] at hw1ev
        dsimp only
        exact hw1ev
      · by_cases hd : distET e.id tw.id < GRID_SIZE * (3/2)
        · have htwa : tw.isAlive = true := by
            revert hdead; cases tw.isAlive <;> simp
          refine ⟨tw, List.mem_cons_self tw rest, htwa, hd, ?_⟩
          rw [meleeScan, if_neg hdead, if_pos hd]
        · have hwrest : w ∈ rest := by
            rcases List.mem_cons.mp hw with rfl | h
            · exact absurd hwd hd
            · exact h
          obtain ⟨w1, hw1, hw1a, hw1d, hw1ev⟩ := ih ⟨w, hwrest, hwa, hwd⟩
          refine ⟨w1, List.mem_cons_of_mem tw hw1, hw1a, hw1d, ?_⟩
          rw [meleeScan, if_neg hdead, if_neg hd]
          rcases hrec : meleeScan now distET e rest with ⟨e1, rest1, ev1⟩
          rw [hrec] at hw1ev
          dsimp only
          exact hw1ev

lemma processEnemyAttacks_event_ids (now : ℚ) (distET : Nat → Nat → ℚ) :
    ∀ (es : List Enemy) (towers : List Tower) (ev : Nat × Nat),
      ev ∈ (processEnemyAttacks now distET es towers).2.2 →
      ev.1 ∈ es.map Enemy.id := by
  intro es
  induction es with
  | nil => intro towers ev h; exact absurd h (List.not_mem_nil ev)
  | cons e rest ih =>
      intro towers ev h
      rw [processEnemyAttacks] at h
      by_cases hskip : e.isAlive = false ∨ e.enemyType = EnemyType.breaker ∨
          e.canAttackTower now = false
      · rw [if_pos hskip] at h
        rcases hrec : processEnemyAttacks now distET rest towers
          with ⟨rest1, towers1, evs⟩
        rw [hrec] at h
        dsimp only at h
        have hin := ih towers ev (by rw [hrec]; exact h)
        rw [List.map_cons]
        exact List.mem_cons_of_mem _ hin
      · rw [if_neg hskip] at h
        rcases hscan : meleeScan now distET e towers with ⟨e1, towers1, evo⟩
        rw [hscan] at h
        dsimp only at h
        rcases hrec : processEnemyAttacks now distET rest towers1
          with ⟨rest1, towers2, evs⟩
        rw [hrec] at h
        dsimp only at h
        rcases List.mem_append.mp h with h1 | h2
        · cases evo with
          | none => exact absurd h1 (List.not_mem_nil ev)
          | some ev1 =>
              have hev : ev = ev1 := by simpa using h1
              subst hev
              have hid := meleeScan_event_id now distET e towers ev
                (by rw [hscan])
              rw [List.map_cons, hid]
              exact List.mem_cons_self _ _
        · have hin := ih towers1 ev (by rw [hrec]; exact h2)
          rw [List.map_cons]
          exact List.mem_cons_of_mem _ hin

lemma processEnemyAttacks_append (now : ℚ) (distET : Nat → Nat → ℚ) :
    ∀ (l1 l2 : List Enemy) (towers : List Tower),
      (processEnemyAttacks now distET (l1 ++ l2) towers).2.1 =
        (processEnemyAttacks now distET l2
          (processEnemyAttacks now distET l1 towers).2.1).2.1 ∧
      (processEnemyAttacks now distET (l1 ++ l2) towers).2.2 =
        (processEnemyAttacks now distET l1 towers).2.2 ++
        (processEnemyAttacks now distET l2
          (processEnemyAttacks now distET l1 towers).2.1).2.2 := by
  intro l1
  induction l1 with
  | nil => intro l2 towers; simp [processEnemyAttacks]
  | cons a l1 ih =>
      intro l2 towers
      rw [List.cons_append, processEnemyAttacks, processEnemyAttacks]
      by_cases hskip : a.isAlive = false ∨ a.enemyType = EnemyType.breaker ∨
          a.canAttackTower now = false
      · rw [if_pos hskip, if_pos hskip]
        rcases hrec12 : processEnemyAttacks now distET (l1 ++ l2) towers
          with ⟨r12, t12, e12⟩
        rcases hrec1 : processEnemyAttacks now distET l1 towers
          with ⟨r1, t1, e1⟩
        dsimp only
        have hih := ih l2 towers
        rw [hrec12, hrec1] at hih
        dsimp only at hih
        exact hih
      · rw [if_neg hskip, if_neg hskip]
        rcases hscan : meleeScan now distET a towers with ⟨a1, towers1, evo⟩
        dsimp only
        rcases hrec12 : processEnemyAttacks now distET (l1 ++ l2) towers1
          with ⟨r12, t12, e12⟩
        rcases hrec1 : processEnemyAttacks now distET l1 towers1
          with ⟨r1, t1, e1⟩
        dsimp only
        have hih := ih l2 towers1
        rw [hrec12, hrec1] at hih
        dsimp only at hih
        exact ⟨hih.1, by rw [hih.2, List.append_assoc]⟩

/-- C9: in `Game.processEnemyAttacks`, consider any enemy `e` in the pass
    (enemy list `pre ++ e :: post`, with `e`'s identity not shared by the
    others).  If `e` is alive, is not a breaker, its attack cooldown has
    elapsed, and some tower that is living when `e` is processed is within
    1.5 grid cells, then `e` attacks exactly one such tower this tick; a
    breaker never attacks in this pass. -/
theorem melee_pass_attacks_once (now : ℚ) (distET : Nat → Nat → ℚ)
    (pre post : List Enemy) (e : Enemy) (towers : List Tower)
    (hfresh : e.id ∉ (pre ++ post).map Enemy.id) :
    (e.isAlive = true → e.enemyType ≠ EnemyType.breaker →
      e.canAttackTower now = true →
      (∃ tw ∈ (processEnemyAttacks now distET pre towers).2.1,
        tw.isAlive = true ∧ distET e.id tw.id < GRID_SIZE * (3/2)) →
      ∃ twid,
        ((processEnemyAttacks now distET (pre ++ e :: post)
          towers).2.2).filter (fun ev => ev.1 = e.id) = [(e.id, twid)] ∧
        ∃ tw ∈ (processEnemyAttacks now distET pre towers).2.1,
          tw.id = twid ∧ tw.isAlive = true ∧
          distET e.id tw.id < GRID_SIZE * (3/2)) ∧
    (e.enemyType = EnemyType.breaker →
      ((processEnemyAttacks now distET (pre ++ e :: post)
        towers).2.2).filter (fun ev => ev.1 = e.id) = []) := by
  have hfreshPre : e.id ∉ pre.map Enemy.id := by
    intro h
    exact hfresh (by simpa using Or.inl h)
  have hfreshPost : e.id ∉ post.map Enemy.id := by
    intro h
    exact hfresh (by simpa using Or.inr h)
  obtain ⟨hmid, hevs⟩ := processEnemyAttacks_append now distET pre (e :: post)
    towers
  have hfilterPre :
      ((processEnemyAttacks now distET pre towers).2.2).filter
        (fun ev => ev.1 = e.id) = [] := by
    rw [List.filter_eq_nil_iff]
    intro ev hev
    have hin := processEnemyAttacks_event_ids now distET pre towers ev hev
    simp only [decide_eq_true_eq]
    intro hh
    rw [hh] at hin
    exact hfreshPre hin
  have hfilterPost : ∀ ts : List Tower,
      ((processEnemyAttacks now distET post ts).2.2).filter
        (fun ev => ev.1 = e.id) = [] := by
    intro ts
    rw [List.filter_eq_nil_iff]
    intro ev hev
    have hin := processEnemyAttacks_event_ids now distET post ts ev hev
    simp only [decide_eq_true_eq]
    intro hh
    rw [hh] at hin
    exact hfreshPost hin
  constructor
  · intro halive hbreaker hcool hexists
    obtain ⟨tw, htw, htwa, htwd, hscanev⟩ :=
      meleeScan_hits now distET e
        ((processEnemyAttacks now distET pre towers).2.1) hexists
    refine ⟨tw.id, ?_, tw, htw, rfl, htwa, htwd⟩
    rw [hevs, List.filter_append, hfilterPre, List.nil_append]
    rw [processEnemyAttacks]
    have hskip : ¬(e.isAlive = false ∨ e.enemyType = EnemyType.breaker ∨
        e.canAttackTower now = false) := by
      rw [halive, hcool]
      simp [hbreaker]
    rw [if_neg hskip]
    rcases hscan : meleeScan now distET e
        ((processEnemyAttacks now distET pre towers).2.1)
      with ⟨e1, towers1, evo⟩
    dsimp only
    rw [hscan] at hscanev
    dsimp only at hscanev
    subst hscanev
    rcases hrecpost : processEnemyAttacks now distET post towers1
      with ⟨rest1, towers2, evs⟩
    dsimp only
    have hfp : evs.filter (fun ev => ev.1 = e.id) = [] := by
      have := hfilterPost towers1
      rw [hrecpost] at this
      exact this
    simp [List.filter_append, hfp]
  · intro hbreaker
    rw [hevs, List.filter_append, hfilterPre, List.nil_append]
    rw [processEnemyAttacks]
    have hskip : e.isAlive = false ∨ e.enemyType = EnemyType.breaker ∨
        e.canAttackTower now = false := Or.inr (Or.inl hbreaker)
    rw [if_pos hskip]
    rcases hrecpost : processEnemyAttacks now distET post
        ((processEnemyAttacks now distET pre towers).2.1)
      with ⟨rest1, towers2, evs⟩
    dsimp only
    have := hfilterPost ((processEnemyAttacks now distET pre towers).2.1)
    rw [hrecpost] at this
    exact this

/-- C9 witness: a ghost (cooldown 2500ms, last attack at 0) processed at
    t = 3000 within 30px of a living tower attacks it exactly once, while a
    breaker in the same situation produces no melee attack event. -/
theorem melee_pass_attacks_once_witness :
    ((processEnemyAttacks 3000 (fun _ _ => 30) [ghostE]
      [towerIdle]).2.2).filter (fun ev => ev.1 = ghostE.id) = [(1, 0)] ∧
    ((processEnemyAttacks 3000 (fun _ _ => 30) [breakerE]
      [towerIdle]).2.2).filter (fun ev => ev.1 = breakerE.id) = [] := by
  have hg := melee_pass_attacks_once 3000 (fun _ _ => 30) [] [] ghostE
    [towerIdle] (by simp)
  have hb := melee_pass_attacks_once 3000 (fun _ _ => 30) [] [] breakerE
    [towerIdle] (by simp)
  simp only [List.nil_append] at hg hb
  constructor
  · have hcool : ghostE.canAttackTower 3000 = true := by
      simp only [Enemy.canAttackTower, ghostE, decide_eq_true_eq]
      norm_num
    have hexists : ∃ tw ∈ (processEnemyAttacks 3000 (fun _ _ => 30) []
        [towerIdle]).2.1, tw.isAlive = true ∧
        (fun _ _ => (30 : ℚ)) ghostE.id tw.id < GRID_SIZE * (3/2) := by
      refine ⟨towerIdle, ?_, rfl, ?_⟩
      · simp [processEnemyAttacks]
      · norm_num [GRID_SIZE]
    obtain ⟨twid, hfil, tw, htw, htwid, -, -⟩ :=
      hg.1 rfl (by simp [ghostE]) hcool hexists
    have htw1 : tw = towerIdle := by
      simpa [processEnemyAttacks] using htw
    rw [htw1] at htwid
    rw [hfil, ← htwid]
    rfl
  · exact hb.2 rfl

/- ------------------------------------------------------------------ -/
/- C7: synergy preview                                                -/
/- ------------------------------------------------------------------ -/

lemma mapGet_append_one (existing : List Tower) (tmp : Tower) (a b : ℤ) :
    mapGet (existing ++ [tmp]) a b =
      if tmp.gridRow = a ∧ tmp.gridCol = b then some tmp
      else mapGet existing a b := by
  unfold mapGet
  rw [List.reverse_append]
  by_cases h : tmp.gridRow = a ∧ tmp.gridCol = b
  · rw [if_pos h]
    simp only [List.reverse_singleton, List.singleton_append]
    rw [List.find?_cons_of_pos _ (by simpa using h)]
  · rw [if_neg h]
    simp only [List.reverse_singleton, List.singleton_append]
    rw [List.find?_cons_of_neg _ (by simpa using h)]

lemma mapGet_eq_none (existing : List Tower) (r c : ℤ)
    (hemp : ∀ t ∈ existing, ¬(t.gridRow = r ∧ t.gridCol = c)) :
    mapGet existing r c = none := by
  unfold mapGet
  rw [List.find?_eq_none]
  intro x hx
  simpa using hemp x (List.mem_reverse.mp hx)

lemma find?_cell_unique (r c : ℤ) :
    ∀ (existing : List Tower),
      existing.Pairwise
        (fun a b => ¬(a.gridRow = b.gridRow ∧ a.gridCol = b.gridCol)) →
      ∀ t ∈ existing, t.gridRow = r → t.gridCol = c →
      existing.find? (fun x => x.gridRow = r ∧ x.gridCol = c) = some t := by
  intro existing
  induction existing with
  | nil => intro _ t ht; exact absurd ht (List.not_mem_nil t)
  | cons x rest ih =>
      intro hpw t ht htr htc
      rcases List.pairwise_cons.mp hpw with ⟨hx, hrest⟩
      by_cases hxcell : x.gridRow = r ∧ x.gridCol = c
      · rw [List.find?_cons_of_pos _ (by simpa using hxcell)]
        rcases List.mem_cons.mp ht with rfl | htrest
        · rfl
        · exact absurd ⟨hxcell.1.trans htr.symm, hxcell.2.trans htc.symm⟩
            (hx t htrest)
      · rw [List.find?_cons_of_neg _ (by simpa using hxcell)]
        rcases List.mem_cons.mp ht with rfl | htrest
        · exact absurd ⟨htr, htc⟩ hxcell
        · exact ih hrest t htrest htr htc

lemma getAdjacentTowers_append_non_neighbor (t : Tower)
    (existing : List Tower) (tmp : Tower)
    (hnn : ∀ d ∈ directions,
      ¬(t.gridRow + d.1 = tmp.gridRow ∧ t.gridCol + d.2 = tmp.gridCol)) :
    getAdjacentTowers t (existing ++ [tmp]) = getAdjacentTowers t existing := by
  unfold getAdjacentTowers
  apply List.filterMap_congr
  intro d hd
  by_cases hb : t.gridRow + d.1 < 0 ∨ GRID_ROWS ≤ t.gridRow + d.1 ∨
      t.gridCol + d.2 < 0 ∨ GRID_COLS ≤ t.gridCol + d.2
  · rw [if_pos hb, if_pos hb]
  · rw [if_neg hb, if_neg hb]
    rw [mapGet_append_one]
    rw [if_neg]
    intro hcell
    exact hnn d hd ⟨hcell.1.symm, hcell.2.symm⟩

lemma calc_append_non_neighbor (t : Tower) (existing : List Tower)
    (tmp : Tower)
    (hnn : ∀ d ∈ directions,
      ¬(t.gridRow + d.1 = tmp.gridRow ∧ t.gridCol + d.2 = tmp.gridCol)) :
    calculateSynergiesForTower t (existing ++ [tmp]) =
      calculateSynergiesForTower t existing := by
  unfold calculateSynergiesForTower
  rw [getAdjacentTowers_append_non_neighbor t existing tmp hnn]

lemma mem_adjacent_append (t : Tower) (existing : List Tower) (tmp : Tower)
    (hemp : mapGet existing tmp.gridRow tmp.gridCol = none)
    (a : Tower) :
    a ∈ getAdjacentTowers t (existing ++ [tmp]) ↔
      a ∈ getAdjacentTowers t existing ∨
      (a = tmp ∧ ∃ d ∈ directions,
        t.gridRow + d.1 = tmp.gridRow ∧ t.gridCol + d.2 = tmp.gridCol ∧
        ¬outOfBounds (t.gridRow + d.1) (t.gridCol + d.2)) := by
  unfold getAdjacentTowers
  simp only [List.mem_filterMap]
  constructor
  · rintro ⟨d, hd, hfd⟩
    by_cases hb : t.gridRow + d.1 < 0 ∨ GRID_ROWS ≤ t.gridRow + d.1 ∨
        t.gridCol + d.2 < 0 ∨ GRID_COLS ≤ t.gridCol + d.2
    · rw [if_pos hb] at hfd
      cases hfd
    · rw [if_neg hb, mapGet_append_one] at hfd
      by_cases hcell : tmp.gridRow = t.gridRow + d.1 ∧
          tmp.gridCol = t.gridCol + d.2
      · rw [if_pos hcell] at hfd
        exact Or.inr ⟨(Option.some.inj hfd).symm,
          d, hd, hcell.1.symm, hcell.2.symm, hb⟩
      · rw [if_neg hcell] at hfd
        exact Or.inl ⟨d, hd, by rw [if_neg hb]; exact hfd⟩
  · rintro (⟨d, hd, hfd⟩ | ⟨rfl, d, hd, h1, h2, hb⟩)
    · by_cases hb : t.gridRow + d.1 < 0 ∨ GRID_ROWS ≤ t.gridRow + d.1 ∨
          t.gridCol + d.2 < 0 ∨ GRID_COLS ≤ t.gridCol + d.2
      · rw [if_pos hb] at hfd
        cases hfd
      · rw [if_neg hb] at hfd
        refine ⟨d, hd, ?_⟩
        rw [if_neg hb, mapGet_append_one, if_neg]
        · exact hfd
        · rintro ⟨hc1, hc2⟩
          rw [hc1, hc2] at hemp
          rw [hemp] at hfd
          cases hfd
    · refine ⟨d, hd, ?_⟩
      rw [if_neg (by simpa [outOfBounds] using hb), mapGet_append_one,
        if_pos ⟨h1.symm, h2.symm⟩]

lemma calc_sublist_append (t : Tower) (existing : List Tower) (tmp : Tower)
    (hemp : mapGet existing tmp.gridRow tmp.gridCol = none) :
    List.Sublist (calculateSynergiesForTower t existing)
      (calculateSynergiesForTower t (existing ++ [tmp])) := by
  unfold calculateSynergiesForTower
  apply List.monotone_filter_right
  intro cfg hcfg
  rcases of_decide_eq_true hcfg with ⟨hsrc, hreq⟩
  apply decide_eq_true
  refine ⟨hsrc, ?_⟩
  rcases List.mem_map.mp hreq with ⟨a, ha, haelem⟩
  exact List.mem_map.mpr ⟨a,
    (mem_adjacent_append t existing tmp hemp a).mpr (Or.inl ha), haelem⟩

lemma neighbor_cell_symm (t : Tower) (r c : ℤ) :
    (∃ d ∈ directions, t.gridRow = r + d.1 ∧ t.gridCol = c + d.2) ↔
    (∃ d ∈ directions, t.gridRow + d.1 = r ∧ t.gridCol + d.2 = c) := by
  constructor
  · rintro ⟨d, hd, h1, h2⟩
    fin_cases hd <;> dsimp at h1 h2
    · exact ⟨(1, 0), by simp [directions], by omega, by omega⟩
    · exact ⟨(-1, 0), by simp [directions], by omega, by omega⟩
    · exact ⟨(0, 1), by simp [directions], by omega, by omega⟩
    · exact ⟨(0, -1), by simp [directions], by omega, by omega⟩
  · rintro ⟨d, hd, h1, h2⟩
    fin_cases hd <;> dsimp at h1 h2
    · exact ⟨(1, 0), by simp [directions], by omega, by omega⟩
    · exact ⟨(-1, 0), by simp [directions], by omega, by omega⟩
    · exact ⟨(0, 1), by simp [directions], by omega, by omega⟩
    · exact ⟨(0, -1), by simp [directions], by omega, by omega⟩

lemma affected_mem_elim (element : ElementType) (r c : ℤ)
    (existing : List Tower) (t : Tower) (s : List SynergyEffect) :
    (t, s) ∈ (previewSynergies element r c existing).affectedTowers →
    ∃ d ∈ directions,
      existing.find?
        (fun x => x.gridRow = r + d.1 ∧ x.gridCol = c + d.2) = some t ∧
      s = calculateSynergiesForTower t
        (existing ++ [tempTower element r c]) ∧
      s.length ≠ t.activeSynergies.length := by
  intro hmem
  simp only [previewSynergies] at hmem
  rcases List.mem_filterMap.mp hmem with ⟨d, hd, hg⟩
  rcases hfind : existing.find?
      (fun x => x.gridRow = r + d.1 ∧ x.gridCol = c + d.2) with _ | adj
  · rw [hfind] at hg
    cases hg
  · rw [hfind] at hg
    dsimp only at hg
    by_cases hlen :
        (calculateSynergiesForTower adj
          (existing ++ [tempTower element r c])).length ≠
        adj.activeSynergies.length
    · rw [if_pos hlen] at hg
      obtain ⟨h1, h2⟩ := Prod.mk.injEq .. ▸ Option.some.inj hg
      subst h1
      exact ⟨d, hd, hfind, h2.symm, h2 ▸ hlen⟩
    · rw [if_neg hlen] at hg
      cases hg

lemma affected_mem_intro (element : ElementType) (r c : ℤ)
    (existing : List Tower) (d : ℤ × ℤ) (hd : d ∈ directions) (t : Tower)
    (hfind : existing.find?
      (fun x => x.gridRow = r + d.1 ∧ x.gridCol = c + d.2) = some t)
    (hlen : (calculateSynergiesForTower t
        (existing ++ [tempTower element r c])).length ≠
      t.activeSynergies.length) :
    (t, calculateSynergiesForTower t (existing ++ [tempTower element r c])) ∈
      (previewSynergies element r c existing).affectedTowers := by
  simp only [previewSynergies]
  apply List.mem_filterMap.mpr
  refine ⟨d, hd, ?_⟩
  rw [hfind]
  dsimp only
  rw [if_pos hlen]

/-- C7: the preview of placing a tower of `element` at the empty cell
    `(r, c)` agrees with actually committing the placement and recomputing
    all synergies, while being computed purely from the existing towers
    (the preview function performs no `setSynergies` call, so no tower's
    `activeSynergies` or `synergyDamageMultiplier` changes): (1) the
    previewed synergies of the new tower equal the committed new tower's
    synergy list; (2) an orthogonal neighbor of `(r, c)` is reported (with
    its recomputed list) exactly when committing would change its synergy
    list; (3) a non-neighbor's synergy list would not change, and it is
    never reported. -/
theorem preview_synergies_correct (element : ElementType) (r c : ℤ)
    (existing : List Tower)
    (hemp : ∀ t ∈ existing, ¬(t.gridRow = r ∧ t.gridCol = c))
    (hpw : existing.Pairwise
      (fun a b => ¬(a.gridRow = b.gridRow ∧ a.gridCol = b.gridCol)))
    (hcons : ∀ t ∈ existing,
      t.activeSynergies = calculateSynergiesForTower t existing) :
    (∃ tc,
      (calculateAndApplySynergies
        (existing ++ [tempTower element r c])).getLast? = some tc ∧
      tc.activeSynergies =
        (previewSynergies element r c existing).newTowerSynergies) ∧
    (∀ t ∈ existing, ∀ d ∈ directions,
      t.gridRow = r + d.1 → t.gridCol = c + d.2 →
      ((∃ s,
          (t, s) ∈ (previewSynergies element r c existing).affectedTowers ∧
          s = calculateSynergiesForTower t
            (existing ++ [tempTower element r c])) ↔
        calculateSynergiesForTower t (existing ++ [tempTower element r c])
          ≠ t.activeSynergies)) ∧
    (∀ t ∈ existing,
      (¬∃ d ∈ directions, t.gridRow = r + d.1 ∧ t.gridCol = c + d.2) →
      calculateSynergiesForTower t (existing ++ [tempTower element r c]) =
        t.activeSynergies ∧
      ∀ s, (t, s) ∉ (previewSynergies element r c existing).affectedTowers) := by
  have hempN : mapGet existing r c = none := mapGet_eq_none existing r c hemp
  refine ⟨?_, ?_, ?_⟩
  · -- (1) the committed new tower carries the previewed synergies
    refine ⟨(tempTower element r c).setSynergies
      (calculateSynergiesForTower (tempTower element r c)
        (existing ++ [tempTower element r c])), ?_, rfl⟩
    unfold calculateAndApplySynergies
    rw [List.map_append, List.map_singleton, List.getLast?_concat]
  · -- (2) neighbors are reported iff committing changes their synergies
    intro t ht d hd htr htc
    have hsub := calc_sublist_append t existing (tempTower element r c) hempN
    have hconsT := hcons t ht
    constructor
    · rintro ⟨s, hmem, hs⟩
      obtain ⟨d1, hd1, hfind1, hseq, hlen⟩ :=
        affected_mem_elim element r c existing t s hmem
      intro heq
      rw [hseq, heq] at hlen
      exact hlen rfl
    · intro hne
      have hlen : (calculateSynergiesForTower t
          (existing ++ [tempTower element r c])).length ≠
          t.activeSynergies.length := by
        intro hleneq
        apply hne
        rw [hconsT] at hleneq
        have heq := hsub.eq_of_length hleneq.symm
        rw [← heq, ← hconsT]
      have hfind := find?_cell_unique (r + d.1) (c + d.2) existing hpw t ht
        htr htc
      exact ⟨calculateSynergiesForTower t
          (existing ++ [tempTower element r c]),
        affected_mem_intro element r c existing d hd t hfind hlen, rfl⟩
  · -- (3) non-neighbors: unchanged by the commit and never reported
    intro t ht hnb
    have hconsT := hcons t ht
    have hnn : ∀ d ∈ directions,
        ¬(t.gridRow + d.1 = r ∧ t.gridCol + d.2 = c) := by
      intro d hd hcell
      exact hnb ((neighbor_cell_symm t r c).mpr ⟨d, hd, hcell.1, hcell.2⟩)
    constructor
    · rw [calc_append_non_neighbor t existing (tempTower element r c) hnn]
      exact hconsT.symm
    · intro s hmem
      obtain ⟨d1, hd1, hfind1, -, -⟩ :=
        affected_mem_elim element r c existing t s hmem
      have hpred := List.find?_some hfind1
      rcases of_decide_eq_true hpred with ⟨h1, h2⟩
      exact hnb ⟨d1, hd1, h1, h2⟩

/-- C7 witness: previewing a fire tower at the empty cell (5, 5), between an
    ice tower at (5, 6) and a lightning tower at (5, 4): the new tower would
    get exactly the fire_ice synergy (matching the committed recompute), the
    lightning neighbor is reported as gaining lightning_fire, and the far
    tower at (9, 9) is never reported. -/
theorem preview_synergies_correct_witness :
    (∃ tc,
      (calculateAndApplySynergies ([iceT, lightT, farT] ++
        [tempTower ElementType.fire 5 5])).getLast? = some tc ∧
      tc.activeSynergies =
        (previewSynergies ElementType.fire 5 5
          [iceT, lightT, farT]).newTowerSynergies) ∧
    (previewSynergies ElementType.fire 5 5
      [iceT, lightT, farT]).newTowerSynergies.map SynergyEffect.name =
        ["fire_ice"] ∧
    (∃ s,
      (lightT, s) ∈ (previewSynergies ElementType.fire 5 5
        [iceT, lightT, farT]).affectedTowers ∧
      s.map SynergyEffect.name = ["lightning_fire"]) ∧
    (∀ s, (farT, s) ∉ (previewSynergies ElementType.fire 5 5
      [iceT, lightT, farT]).affectedTowers) := by
  have h := preview_synergies_correct ElementType.fire 5 5 [iceT, lightT, farT]
    (by decide) (by decide) (by decide)
  refine ⟨h.1, rfl, ?_, ?_⟩
  · have hne : calculateSynergiesForTower lightT ([iceT, lightT, farT] ++
        [tempTower ElementType.fire 5 5]) ≠ lightT.activeSynergies := by
      intro hcon
      exact absurd (congrArg List.length hcon) (by decide)
    obtain ⟨s, hmem, hs⟩ :=
      (h.2.1 lightT (by decide) (0, -1) (by decide) (by decide)
        (by decide)).mpr hne
    exact ⟨s, hmem, by rw [hs]; decide⟩
  · exact (h.2.2 farT (by decide) (by decide)).2

end EDD
